import Mathlib

/-!
# The plan store of the Wanderlust dashboard (`src/js/main.js`)

A shallow embedding of the plan store kept in the global `AppState` object:
the saved plans, the `localStorage` slot that mirrors them, the counter
elements of the page, the operations `saveToStorage`, `addPlan`,
`removePlan`, `clearAllPlans`, `updatePlansCounter` and `showToast`, the
toggles `saveHoliday`, `saveEvent` and `saveLongWeekend`, and the startup load
of `savedPlans`.  The two library functions the store relies on,
`JSON.stringify` and `JSON.parse`, are modelled on the values plans are made
of.

JavaScript methods mutate `this`; here every operation takes the state and
returns an `Outcome`: the state it leaves behind together with the way the
call completed (a returned value or a thrown exception).  What the program
reads from its surroundings (the clock, whether `localStorage` accepts a
write) is an explicit `Env` argument of each call.
-/

namespace Wanderlust

/-! ## Values -/

/-- A JavaScript primitive.  Plan fields hold primitives only; numbers are the
integers (no `NaN`, no fractions), which is what `Date.now()` produces. -/
inductive JSVal where
  | undefined : JSVal
  | null : JSVal
  | bool (b : Bool) : JSVal
  | num (n : Int) : JSVal
  | str (s : String) : JSVal
  deriving DecidableEq, Repr

/-- The operator `===` on primitives. -/
def JSVal.strictEq (a b : JSVal) : Bool := decide (a = b)

/-- An object literal with primitive fields, as passed for `data` to
`addPlan`: its own properties in the order the object enumerates them (the
order of creation, for the property names the program uses).  An object has
no two properties of the same name; property access reads the first entry of
a name. -/
abbrev PlanData := List (String × JSVal)

/-- Property access `o.k`: the value of the property, `undefined` when the
object has no such property. -/
def getProp (o : PlanData) (k : String) : JSVal :=
  match o.lookup k with
  | some v => v
  | none => JSVal.undefined

/-- The object `selectedCountry` (source lines 4-9 and 664-670). -/
structure Country where
  code : String
  name : String
  flag : String
  capital : Option String
  deriving DecidableEq, Repr

/-- A plan object as built by `addPlan` (source lines 51-58).  `city` is the
value of `selectedCity`, which is a string or `null`. -/
structure Plan where
  id : Int
  type : String
  data : PlanData
  savedAt : String
  country : String
  city : Option String
  deriving DecidableEq, Repr

/-! ## `JSON.stringify` on plans -/

/-- One lower-case hexadecimal digit. -/
def hexDigit (n : Nat) : Char :=
  if n < 10 then Char.ofNat (48 + n) else Char.ofNat (87 + n)

/-- The characters `JSON.stringify` writes for one character of a string:
the two-character escapes for the quote, the backslash and the five named
control characters, a `u` escape for the other control characters, and the
character itself otherwise. -/
def quoteChar (c : Char) : List Char :=
  if c.toNat = 34 then [Char.ofNat 92, Char.ofNat 34]
  else if c.toNat = 92 then [Char.ofNat 92, Char.ofNat 92]
  else if c.toNat = 8 then [Char.ofNat 92, 'b']
  else if c.toNat = 12 then [Char.ofNat 92, 'f']
  else if c.toNat = 10 then [Char.ofNat 92, 'n']
  else if c.toNat = 13 then [Char.ofNat 92, 'r']
  else if c.toNat = 9 then [Char.ofNat 92, 't']
  else if c.toNat < 32 then
    [Char.ofNat 92, 'u', '0', '0', hexDigit (c.toNat / 16), hexDigit (c.toNat % 16)]
  else [c]

/-- A string as a JSON string literal. -/
def quoteJSON (s : String) : List Char :=
  Char.ofNat 34 :: (s.data.flatMap quoteChar ++ [Char.ofNat 34])

/-- An integer in decimal, as `JSON.stringify` prints the integers of
magnitude below `10^21` (every clock reading is one). -/
def intJSON (n : Int) : List Char :=
  if n < 0 then '-' :: Nat.toDigits 10 n.natAbs else Nat.toDigits 10 n.toNat

/-- The text of a primitive as a property value; `none` for `undefined`,
whose property `JSON.stringify` leaves out of the object. -/
def valJSON : JSVal → Option (List Char)
  | JSVal.undefined => none
  | JSVal.null => some "null".data
  | JSVal.bool true => some "true".data
  | JSVal.bool false => some "false".data
  | JSVal.num n => some (intJSON n)
  | JSVal.str s => some (quoteJSON s)

/-- One `"key":value` member, or nothing for an `undefined` value. -/
def memberJSON (kv : String × JSVal) : Option (List Char) :=
  (valJSON kv.2).map (fun v => quoteJSON kv.1 ++ ':' :: v)

/-- Texts separated by commas. -/
def commaSep : List (List Char) → List Char
  | [] => []
  | [x] => x
  | x :: y :: rest => x ++ ',' :: commaSep (y :: rest)

/-- An object between braces. -/
def objectJSON (members : List (List Char)) : List Char :=
  Char.ofNat 123 :: (commaSep members ++ [Char.ofNat 125])

/-- The text of a `data` object. -/
def dataJSON (d : PlanData) : List Char :=
  objectJSON (d.filterMap memberJSON)

/-- The text of a plan: its six properties in the order `addPlan` creates
them. -/
def planJSON (p : Plan) : List Char :=
  objectJSON
    [ quoteJSON "id" ++ ':' :: intJSON p.id,
      quoteJSON "type" ++ ':' :: quoteJSON p.type,
      quoteJSON "data" ++ ':' :: dataJSON p.data,
      quoteJSON "savedAt" ++ ':' :: quoteJSON p.savedAt,
      quoteJSON "country" ++ ':' :: quoteJSON p.country,
      quoteJSON "city" ++ ':' ::
        (match p.city with
         | some c => quoteJSON c
         | none => "null".data) ]

/-- The result of `JSON.stringify(this.savedPlans)`: the array of the plans'
texts. -/
def stringifyPlans (ps : List Plan) : String :=
  String.mk ('[' :: (commaSep (ps.map planJSON) ++ [']']))

/-! ## The page, the storage and the state -/

/-- A toast appended to `#toast-container` by `showToast`: its message and
its type. -/
structure Toast where
  message : String
  type : String
  deriving DecidableEq, Repr

/-- The elements of the page the plan store writes to.  The page is taken to
contain them (`getElementById` finds each one). -/
structure Dom where
  /-- The `textContent` of `#plans-count`. -/
  plansCount : String
  /-- Whether `#plans-count` carries the class `hidden`. -/
  plansCountHidden : Bool
  /-- The `textContent` of `#filter-all-count`. -/
  filterAllCount : String
  /-- The `textContent` of `#filter-holiday-count`. -/
  filterHolidayCount : String
  /-- The `textContent` of `#filter-event-count`. -/
  filterEventCount : String
  /-- The `textContent` of `#filter-lw-count`. -/
  filterLwCount : String
  /-- The toasts appended to `#toast-container`, oldest first. -/
  toasts : List Toast
  deriving DecidableEq, Repr

/-- The contents of `localStorage`: keys with their strings. -/
abbrev Storage := List (String × String)

/-- The call `localStorage.getItem(k)`: the stored string, or `null`. -/
def Storage.getItem (st : Storage) (k : String) : Option String :=
  st.lookup k

/-- The effect of an accepted `localStorage.setItem(k, v)`. -/
def Storage.setItem (st : Storage) (k v : String) : Storage :=
  (k, v) :: st.filter (fun kv => kv.1 != k)

/-- The name of the slot holding the plans. -/
def plansKey : String := "wanderlust_plans"

/-- The part of the global object `AppState` the plan store reads and writes,
with the storage and the page elements it reaches. -/
structure AppState where
  selectedCountry : Option Country
  selectedCity : Option String
  savedPlans : List Plan
  localStorage : Storage
  dom : Dom
  deriving DecidableEq, Repr

/-- What one call reads from its surroundings. -/
structure Env where
  /-- The value of `Date.now()`. -/
  now : Int
  /-- The value of `new Date().toISOString()`. -/
  isoNow : String
  /-- Whether `localStorage.setItem` accepts the write; when it does not, it
  throws (quota exceeded). -/
  quotaOk : Bool
  deriving DecidableEq, Repr

/-- An exception thrown during a call. -/
inductive JSError where
  /-- Reading a property of `null`. -/
  | typeError : JSError
  /-- A write rejected by `localStorage.setItem`. -/
  | quotaExceeded : JSError
  /-- A text that `JSON.parse` rejects. -/
  | syntaxError : JSError
  deriving DecidableEq, Repr

/-- How a call ended. -/
inductive Completion where
  | returned (v : JSVal) : Completion
  | threw (e : JSError) : Completion
  deriving DecidableEq, Repr

/-- The state a call leaves behind and how the call ended. -/
structure Outcome where
  state : AppState
  completion : Completion
  deriving DecidableEq, Repr

/-! ## Operations -/

/-- The number `savedPlans.filter((p) => p.type === t).length`. -/
def countOfType (ps : List Plan) (t : String) : Nat :=
  (ps.filter (fun p => p.type == t)).length

/-- Source lines 82-96: `updatePlansCounter`. -/
def updatePlansCounter (s : AppState) : AppState :=
  let count := s.savedPlans.length
  { s with dom :=
      { s.dom with
        plansCount := toString count
        plansCountHidden := decide (count = 0)
        filterAllCount := toString count
        filterHolidayCount := toString (countOfType s.savedPlans "holiday")
        filterEventCount := toString (countOfType s.savedPlans "event")
        filterLwCount := toString (countOfType s.savedPlans "longweekend") } }

/-- Source lines 44-47: `saveToStorage`.  A rejected write throws before the
counters are refreshed. -/
def saveToStorage (s : AppState) (quotaOk : Bool) : Outcome :=
  if quotaOk then
    { state := updatePlansCounter
        { s with localStorage :=
            s.localStorage.setItem plansKey (stringifyPlans s.savedPlans) }
      completion := Completion.returned JSVal.undefined }
  else
    { state := s, completion := Completion.threw JSError.quotaExceeded }

/-- Source lines 104-129: `showToast`, as far as the toast container goes
(the timers that remove the toast later are left out). -/
def showToast (s : AppState) (message type : String) : AppState :=
  { s with dom := { s.dom with toasts := s.dom.toasts ++ [{ message := message, type := type }] } }

/-- The expression `type.charAt(0).toUpperCase() + type.slice(1)`, with
`toUpperCase` on the letters `a` to `z`. -/
def capitalize (type : String) : String :=
  match type.data with
  | [] => ""
  | c :: cs => String.mk (c.toUpper :: cs)

/-- Source lines 50-66: `addPlan`.  Building the plan reads
`this.selectedCountry.code`, which throws when `selectedCountry` is `null`. -/
def addPlan (s : AppState) (env : Env) (type : String) (data : PlanData) : Outcome :=
  match s.selectedCountry with
  | none => { state := s, completion := Completion.threw JSError.typeError }
  | some c =>
    let plan : Plan :=
      { id := env.now, type := type, data := data, savedAt := env.isoNow,
        country := c.code, city := s.selectedCity }
    let saved := saveToStorage { s with savedPlans := s.savedPlans ++ [plan] } env.quotaOk
    match saved.completion with
    | Completion.threw e => { state := saved.state, completion := Completion.threw e }
    | Completion.returned _ =>
      { state := showToast saved.state (capitalize type ++ " saved to your plans!") "success"
        completion := Completion.returned JSVal.undefined }

/-- Source lines 69-72: `removePlan`. -/
def removePlan (s : AppState) (env : Env) (id : Int) : Outcome :=
  saveToStorage { s with savedPlans := s.savedPlans.filter (fun plan => plan.id != id) }
    env.quotaOk

/-- Source lines 75-79: `clearAllPlans`. -/
def clearAllPlans (s : AppState) (env : Env) : Outcome :=
  let saved := saveToStorage { s with savedPlans := [] } env.quotaOk
  match saved.completion with
  | Completion.threw e => { state := saved.state, completion := Completion.threw e }
  | Completion.returned _ =>
    { state := showToast saved.state "All plans cleared!" "info"
      completion := Completion.returned JSVal.undefined }

/-- Source lines 1574-1577: the plans `renderPlans(filter)` shows. -/
def plansToShow (s : AppState) (filter : String) : List Plan :=
  if filter != "all" then s.savedPlans.filter (fun plan => plan.type == filter)
  else s.savedPlans

/-! ## Natural keys -/

/-- The field that identifies a plan among the plans of its type: `data.date`
for a holiday, `data.title` for an event and for a long weekend.  The other
types have none. -/
def naturalKey (type : String) (data : PlanData) : Option JSVal :=
  if type = "holiday" then some (getProp data "date")
  else if type = "event" ∨ type = "longweekend" then some (getProp data "title")
  else none

/-- Whether two (type, data) pairs have the same type and the same natural
key, compared with `===`. -/
def sameKey (t : String) (d : PlanData) (t2 : String) (d2 : PlanData) : Bool :=
  t == t2 &&
    (match naturalKey t d, naturalKey t2 d2 with
     | some a, some b => a.strictEq b
     | _, _ => false)

/-- Whether some stored plan has the type and natural key of `(type, data)`. -/
def keyStored (ps : List Plan) (type : String) (data : PlanData) : Bool :=
  ps.any (fun p => sameKey p.type p.data type data)

/-- No two plans of the sequence share both type and natural key. -/
def NaturalKeysUnique (ps : List Plan) : Prop :=
  ps.Pairwise (fun p q => sameKey p.type p.data q.type q.data = false)

instance : DecidablePred NaturalKeysUnique := fun ps => by
  unfold NaturalKeysUnique
  infer_instance

/-- The ids of the sequence are pairwise distinct. -/
def IdsDistinct (ps : List Plan) : Prop :=
  (ps.map (fun p => p.id)).Nodup

instance : DecidablePred IdsDistinct := fun ps => by
  unfold IdsDistinct
  infer_instance

/-! ## Sequences of calls -/

/-- One call of a mutating operation of the store, with what it reads from
its surroundings. -/
inductive Op where
  | add (env : Env) (type : String) (data : PlanData) : Op
  | remove (env : Env) (id : Int) : Op
  | clear (env : Env) : Op
  deriving DecidableEq, Repr

/-- The outcome of one call. -/
def step (s : AppState) : Op → Outcome
  | Op.add env type data => addPlan s env type data
  | Op.remove env id => removePlan s env id
  | Op.clear env => clearAllPlans s env

/-- The state after a sequence of calls, each made on the state the previous
one left behind. -/
def run (s : AppState) : List Op → AppState
  | [] => s
  | op :: ops => run (step s op).state ops

/-- The clock readings of the `addPlan` calls of a sequence, in call order. -/
def addClocks : List Op → List Int
  | [] => []
  | Op.add env _ _ :: ops => env.now :: addClocks ops
  | _ :: ops => addClocks ops

/-- The plans the `addPlan` calls of a sequence put into the store, in call
order: for each such call, what `savedPlans` holds after the call beyond its
length before the call. -/
def created (s : AppState) : List Op → List Plan
  | [] => []
  | Op.add env type data :: ops =>
    (addPlan s env type data).state.savedPlans.drop s.savedPlans.length ++
      created (addPlan s env type data).state ops
  | Op.remove env id :: ops => created (removePlan s env id).state ops
  | Op.clear env :: ops => created (clearAllPlans s env).state ops

/-- Whether every `addPlan` call of the sequence is made on a store holding no
plan with the type and natural key of its arguments. -/
def addsUnsaved (s : AppState) : List Op → Bool
  | [] => true
  | Op.add env type data :: ops =>
    !keyStored s.savedPlans type data && addsUnsaved (addPlan s env type data).state ops
  | Op.remove env id :: ops => addsUnsaved (removePlan s env id).state ops
  | Op.clear env :: ops => addsUnsaved (clearAllPlans s env).state ops

/-- Whether every `addPlan` call of the sequence reads a clock value that is
not the id of a plan stored at the call. -/
def addsFreshId (s : AppState) : List Op → Bool
  | [] => true
  | Op.add env type data :: ops =>
    s.savedPlans.all (fun p => p.id != env.now) &&
      addsFreshId (addPlan s env type data).state ops
  | Op.remove env id :: ops => addsFreshId (removePlan s env id).state ops
  | Op.clear env :: ops => addsFreshId (clearAllPlans s env).state ops

/-- The page before any counter was written and any toast shown. -/
def Dom.initial : Dom :=
  { plansCount := "", plansCountHidden := true, filterAllCount := "",
    filterHolidayCount := "", filterEventCount := "", filterLwCount := "",
    toasts := [] }

/-- The state of source lines 4-21 on a browser with nothing stored: Egypt and
Cairo selected, no plan saved. -/
def AppState.initial : AppState :=
  { selectedCountry :=
      some { code := "EG", name := "Egypt", flag := "https://flagcdn.com/w80/eg.png",
             capital := some "Cairo" }
    selectedCity := some "Cairo"
    savedPlans := []
    localStorage := []
    dom := Dom.initial }

/-! ## Sample inputs -/

/-- The holiday of the first example scenario. -/
def sampleHoliday : PlanData :=
  [("name", JSVal.str "New Year"), ("localName", JSVal.str "New Year"),
   ("date", JSVal.str "2025-01-01"), ("country", JSVal.str "Egypt")]

/-- The event of the third example scenario. -/
def sampleEvent : PlanData :=
  [("title", JSVal.str "Music Night in Cairo"), ("date", JSVal.str "Sat, Mar 1"),
   ("location", JSVal.str "Cairo Opera House"), ("category", JSVal.str "Music")]

/-- A call made at clock value 1000 on a storage that accepts writes. -/
def sampleEnv : Env :=
  { now := 1000, isoNow := "1970-01-01T00:00:01.000Z", quotaOk := true }

/-- A call made one millisecond later. -/
def laterEnv : Env :=
  { now := 1001, isoNow := "1970-01-01T00:00:01.001Z", quotaOk := true }

/-- A call made at clock value 1000 on a storage that rejects writes. -/
def fullEnv : Env :=
  { now := 1000, isoNow := "1970-01-01T00:00:01.000Z", quotaOk := false }

/-- A store holding three plans: the state after the sample holiday, the
sample event and a long weekend were added to the initial store. -/
def threePlans : AppState :=
  run AppState.initial
    [Op.add sampleEnv "holiday" sampleHoliday,
     Op.add laterEnv "event" sampleEvent,
     Op.add { now := 1002, isoNow := "1970-01-01T00:00:01.002Z", quotaOk := true }
       "longweekend"
       [("title", JSVal.str "Spring break"), ("dates", JSVal.str "Apr 18 - Apr 21"),
        ("duration", JSVal.str "4 days")]]

/-! ## The save toggles -/

/-- Source lines 979-981 and 1332-1334: the test `isSaved` of `renderHolidays`
and of `saveHoliday`, for a holiday whose `date` is the given value. -/
def isSavedHoliday (s : AppState) (date : JSVal) : Bool :=
  s.savedPlans.any
    (fun plan => plan.type == "holiday" && (getProp plan.data "date").strictEq date)

/-- Source lines 621-623 and 1375-1377: the test `isSaved` of `renderEvents`
and of `saveEvent`, for an event with the given title. -/
def isSavedEvent (s : AppState) (title : JSVal) : Bool :=
  s.savedPlans.any
    (fun plan => plan.type == "event" && (getProp plan.data "title").strictEq title)

/-- Source lines 1423-1425: the test `isSaved` of `saveLongWeekend`, for a
long weekend with the given title. -/
def isSavedLongWeekend (s : AppState) (title : JSVal) : Bool :=
  s.savedPlans.any
    (fun plan => plan.type == "longweekend" && (getProp plan.data "title").strictEq title)

/-- Source lines 1331-1363: `saveHoliday(holiday, button)`.  The holiday is
the object read from the button's `data-holiday` attribute.  The icon written
to the button, when one is passed, is outside the store and left out.  In the
adding branch the argument of `addPlan` is built first, and reading
`this.selectedCountry.name` throws when `selectedCountry` is `null`. -/
def saveHoliday (s : AppState) (env : Env) (holiday : PlanData) : Outcome :=
  if isSavedHoliday s (getProp holiday "date") then
    let saved := saveToStorage
      { s with savedPlans := s.savedPlans.filter (fun plan =>
          !(plan.type == "holiday" &&
            (getProp plan.data "date").strictEq (getProp holiday "date"))) }
      env.quotaOk
    match saved.completion with
    | Completion.threw e => { state := saved.state, completion := Completion.threw e }
    | Completion.returned _ =>
      { state := updatePlansCounter (showToast saved.state "Holiday removed from plans" "info")
        completion := Completion.returned JSVal.undefined }
  else
    match s.selectedCountry with
    | none => { state := s, completion := Completion.threw JSError.typeError }
    | some c =>
      let added := addPlan s env "holiday"
        [("name", getProp holiday "name"), ("localName", getProp holiday "localName"),
         ("date", getProp holiday "date"), ("country", JSVal.str c.name)]
      match added.completion with
      | Completion.threw e => { state := added.state, completion := Completion.threw e }
      | Completion.returned _ =>
        { state := updatePlansCounter added.state
          completion := Completion.returned JSVal.undefined }

/-- What `saveEvent` reads from an event card: the text of its `h3`, of the
two `div`s of `.event-card-info`, and of `.event-card-category` when the card
has that element. -/
structure EventCard where
  title : String
  dateText : String
  locationText : String
  category : Option String
  deriving DecidableEq, Repr

/-- The expression
`eventCard.querySelector(".event-card-category")?.textContent || "General"`. -/
def EventCard.categoryOrGeneral (card : EventCard) : String :=
  match card.category with
  | some c => if c = "" then "General" else c
  | none => "General"

/-- Source lines 1366-1416: `saveEvent(eventCard)`; the icon and label written
to the card's save button are left out. -/
def saveEvent (s : AppState) (env : Env) (card : EventCard) : Outcome :=
  if isSavedEvent s (JSVal.str card.title) then
    let saved := saveToStorage
      { s with savedPlans := s.savedPlans.filter (fun plan =>
          !(plan.type == "event" &&
            (getProp plan.data "title").strictEq (JSVal.str card.title))) }
      env.quotaOk
    match saved.completion with
    | Completion.threw e => { state := saved.state, completion := Completion.threw e }
    | Completion.returned _ =>
      { state := updatePlansCounter (showToast saved.state "Event removed from plans" "info")
        completion := Completion.returned JSVal.undefined }
  else
    let added := addPlan s env "event"
      [("title", JSVal.str card.title), ("date", JSVal.str card.dateText),
       ("location", JSVal.str card.locationText),
       ("category", JSVal.str card.categoryOrGeneral)]
    match added.completion with
    | Completion.threw e => { state := added.state, completion := Completion.threw e }
    | Completion.returned _ =>
      { state := updatePlansCounter added.state
        completion := Completion.returned JSVal.undefined }

/-- What `saveLongWeekend` reads from a long-weekend card: the text of its
`h3`, of `.lw-dates` and of `.lw-badge`. -/
structure LwCard where
  title : String
  dates : String
  duration : String
  deriving DecidableEq, Repr

/-- Source lines 1419-1455: `saveLongWeekend(lwCard)`; the icon written to the
card's button is left out. -/
def saveLongWeekend (s : AppState) (env : Env) (card : LwCard) : Outcome :=
  if isSavedLongWeekend s (JSVal.str card.title) then
    let saved := saveToStorage
      { s with savedPlans := s.savedPlans.filter (fun plan =>
          !(plan.type == "longweekend" &&
            (getProp plan.data "title").strictEq (JSVal.str card.title))) }
      env.quotaOk
    match saved.completion with
    | Completion.threw e => { state := saved.state, completion := Completion.threw e }
    | Completion.returned _ =>
      { state := updatePlansCounter
          (showToast saved.state "Long weekend removed from plans" "info")
        completion := Completion.returned JSVal.undefined }
  else
    let added := addPlan s env "longweekend"
      [("title", JSVal.str card.title), ("dates", JSVal.str card.dates),
       ("duration", JSVal.str card.duration)]
    match added.completion with
    | Completion.threw e => { state := added.state, completion := Completion.threw e }
    | Completion.returned _ =>
      { state := updatePlansCounter added.state
        completion := Completion.returned JSVal.undefined }

/-- The environment a call of the sequence reads. -/
def Op.env : Op → Env
  | Op.add env _ _ => env
  | Op.remove env _ => env
  | Op.clear env => env

/-- Whether the call is an `addPlan`. -/
def Op.isAdd : Op → Bool
  | Op.add _ _ _ => true
  | _ => false

/-- The new sequence keeps a subsequence of the old one, each kept plan as it
was, and holds at most one plan beyond it, at the end. -/
def OnlyMembershipChanged (old new : List Plan) : Prop :=
  ∃ kept added : List Plan,
    new = kept ++ added ∧ kept.Sublist old ∧ added.length ≤ 1

/-! ## `JSON.parse` -/

/-- A value denoted by a JSON text.  A number is kept as an exact decimal,
`mantissa * 10 ^ exponent`; an object lists its members in the order of the
text, a repeated name keeping its first place and its last value. -/
inductive Json where
  | null : Json
  | bool (b : Bool) : Json
  | num (mantissa : Int) (exponent : Int) : Json
  | str (s : String) : Json
  | arr (elems : List Json) : Json
  | obj (members : List (String × Json)) : Json

/-- JSON white space: space, tab, line feed, carriage return. -/
def isWs (c : Char) : Bool :=
  c.toNat = 32 || c.toNat = 9 || c.toNat = 10 || c.toNat = 13

/-- The text after its leading white space. -/
def skipWs : List Char → List Char
  | [] => []
  | c :: cs => if isWs c then skipWs cs else c :: cs

/-- The value of a hexadecimal digit. -/
def hexVal (c : Char) : Option Nat :=
  if 48 ≤ c.toNat ∧ c.toNat ≤ 57 then some (c.toNat - 48)
  else if 97 ≤ c.toNat ∧ c.toNat ≤ 102 then some (c.toNat - 87)
  else if 65 ≤ c.toNat ∧ c.toNat ≤ 70 then some (c.toNat - 55)
  else none

/-- The character a one-letter escape stands for. -/
def unescape (e : Char) : Option Char :=
  if e.toNat = 34 then some (Char.ofNat 34)
  else if e.toNat = 92 then some (Char.ofNat 92)
  else if e.toNat = 47 then some (Char.ofNat 47)
  else if e = 'b' then some (Char.ofNat 8)
  else if e = 'f' then some (Char.ofNat 12)
  else if e = 'n' then some (Char.ofNat 10)
  else if e = 'r' then some (Char.ofNat 13)
  else if e = 't' then some (Char.ofNat 9)
  else none

/-- The rest of a string literal after its opening quote: the characters it
denotes and the text after its closing quote.  A control character must be
escaped; a `u` escape is read as the character with that code, each escape
on its own, so two escapes that spell a surrogate pair are not combined into
one character. -/
def parseStringBody : List Char → Option (List Char × List Char)
  | [] => none
  | c :: cs =>
    if c.toNat = 34 then some ([], cs)
    else if c.toNat = 92 then
      match cs with
      | [] => none
      | e :: cs1 =>
        if e = 'u' then
          match cs1 with
          | h1 :: h2 :: h3 :: h4 :: cs2 =>
            match hexVal h1, hexVal h2, hexVal h3, hexVal h4 with
            | some a, some b, some c3, some d =>
              match parseStringBody cs2 with
              | some (s, r) => some (Char.ofNat (4096 * a + 256 * b + 16 * c3 + d) :: s, r)
              | none => none
            | _, _, _, _ => none
          | _ => none
        else
          match unescape e with
          | some x =>
            match parseStringBody cs1 with
            | some (s, r) => some (x :: s, r)
            | none => none
          | none => none
    else if c.toNat < 32 then none
    else
      match parseStringBody cs with
      | some (s, r) => some (c :: s, r)
      | none => none

/-- The leading decimal digits of a text and the text after them. -/
def takeDigits : List Char → List Char × List Char
  | [] => ([], [])
  | c :: cs =>
    if c.isDigit then ((takeDigits cs).1.cons c, (takeDigits cs).2) else ([], c :: cs)

/-- The number written by a sequence of decimal digits. -/
def digitsToNat (ds : List Char) : Nat :=
  ds.foldl (fun n c => 10 * n + (c.toNat - 48)) 0

/-- A digit sequence of more than one digit that starts with `0`, which JSON
does not allow as the integer part of a number. -/
def leadingZero : List Char → Bool
  | c :: _ :: _ => c.toNat = 48
  | _ => false

/-- The fraction of a number, when the text continues with one: its digits
and the text after them; no digits when there is no fraction; `none` for a
point without digits. -/
def parseFraction : List Char → Option (List Char × List Char)
  | c :: cs =>
    if c = '.' then
      if (takeDigits cs).1.isEmpty then none else some (takeDigits cs)
    else some ([], c :: cs)
  | [] => some ([], [])

/-- The digits of an exponent after its sign. -/
def parseExponentDigits (negative : Bool) (cs : List Char) : Option (Int × List Char) :=
  if (takeDigits cs).1.isEmpty then none
  else
    some (if negative then -(digitsToNat (takeDigits cs).1 : Int)
          else (digitsToNat (takeDigits cs).1 : Int),
          (takeDigits cs).2)

/-- The exponent of a number, when the text continues with one; 0 when there
is none. -/
def parseExponent : List Char → Option (Int × List Char)
  | c :: cs =>
    if c = 'e' ∨ c = 'E' then
      match cs with
      | s :: cs1 =>
        if s = '+' then parseExponentDigits false cs1
        else if s = '-' then parseExponentDigits true cs1
        else parseExponentDigits false (s :: cs1)
      | [] => none
    else some (0, c :: cs)
  | [] => some (0, [])

/-- A number after its sign. -/
def parseUnsigned (negative : Bool) (cs : List Char) : Option (Json × List Char) :=
  if (takeDigits cs).1.isEmpty || leadingZero (takeDigits cs).1 then none
  else
    match parseFraction (takeDigits cs).2 with
    | none => none
    | some (fraction, afterFraction) =>
      match parseExponent afterFraction with
      | none => none
      | some (e, rest) =>
        some (Json.num
          (if negative then -(digitsToNat ((takeDigits cs).1 ++ fraction) : Int)
           else (digitsToNat ((takeDigits cs).1 ++ fraction) : Int))
          (e - fraction.length), rest)

/-- A JSON number at the start of a text. -/
def parseNumber : List Char → Option (Json × List Char)
  | [] => none
  | c :: cs => if c = '-' then parseUnsigned true cs else parseUnsigned false (c :: cs)

/-- An object member under a name: a name already present keeps its place and
takes the new value. -/
def setMember (ms : List (String × Json)) (k : String) (v : Json) : List (String × Json) :=
  match ms with
  | [] => [(k, v)]
  | (k2, v2) :: rest => if k2 = k then (k, v) :: rest else (k2, v2) :: setMember rest k v

/-- The members of an object from the members of its text, in text order. -/
def buildObject (raw : List (String × Json)) : List (String × Json) :=
  raw.foldl (fun ms kv => setMember ms kv.1 kv.2) []

mutual

/-- A JSON value at the start of a text, after white space, and the text
after it.  The first argument bounds the number of nested calls. -/
def parseValue : Nat → List Char → Option (Json × List Char)
  | 0, _ => none
  | fuel + 1, cs =>
    match skipWs cs with
    | [] => none
    | c :: r =>
      if c.toNat = 34 then
        match parseStringBody r with
        | some (s, r1) => some (Json.str (String.mk s), r1)
        | none => none
      else if c = '[' then
        match skipWs r with
        | [] => none
        | c1 :: r1 =>
          if c1 = ']' then some (Json.arr [], r1)
          else
            match parseElems fuel (c1 :: r1) with
            | some (vs, r2) => some (Json.arr vs, r2)
            | none => none
      else if c.toNat = 123 then
        match skipWs r with
        | [] => none
        | c1 :: r1 =>
          if c1.toNat = 125 then some (Json.obj [], r1)
          else
            match parseMembers fuel (c1 :: r1) with
            | some (ms, r2) => some (Json.obj (buildObject ms), r2)
            | none => none
      else if c = 'n' then
        match r with
        | 'u' :: 'l' :: 'l' :: r1 => some (Json.null, r1)
        | _ => none
      else if c = 't' then
        match r with
        | 'r' :: 'u' :: 'e' :: r1 => some (Json.bool true, r1)
        | _ => none
      else if c = 'f' then
        match r with
        | 'a' :: 'l' :: 's' :: 'e' :: r1 => some (Json.bool false, r1)
        | _ => none
      else parseNumber (c :: r)

/-- The elements of an array from its first element on, up to the closing
bracket. -/
def parseElems : Nat → List Char → Option (List Json × List Char)
  | 0, _ => none
  | fuel + 1, cs =>
    match parseValue fuel cs with
    | none => none
    | some (v, r) =>
      match skipWs r with
      | [] => none
      | c :: r1 =>
        if c = ',' then
          match parseElems fuel r1 with
          | some (vs, r2) => some (v :: vs, r2)
          | none => none
        else if c = ']' then some ([v], r1)
        else none

/-- The members of an object from its first member on, up to the closing
brace. -/
def parseMembers : Nat → List Char → Option (List (String × Json) × List Char)
  | 0, _ => none
  | fuel + 1, cs =>
    match skipWs cs with
    | [] => none
    | q :: r =>
      if q.toNat = 34 then
        match parseStringBody r with
        | none => none
        | some (k, r1) =>
          match skipWs r1 with
          | [] => none
          | colon :: r2 =>
            if colon = ':' then
              match parseValue fuel r2 with
              | none => none
              | some (v, r3) =>
                match skipWs r3 with
                | [] => none
                | c :: r4 =>
                  if c = ',' then
                    match parseMembers fuel r4 with
                    | some (ms, r5) => some ((String.mk k, v) :: ms, r5)
                    | none => none
                  else if c.toNat = 125 then some ([(String.mk k, v)], r4)
                  else none
            else none
      else none

end

/-- The call `JSON.parse(text)`: the value the text denotes, `none` when the
text is not valid JSON and the call throws a `SyntaxError`. -/
def parseJSON (text : List Char) : Option Json :=
  match parseValue (2 * text.length + 2) text with
  | some (v, r) => if (skipWs r).isEmpty then some v else none
  | none => none

/-! ## The startup load -/

/-- Whether a value is falsy, so that `value || []` is `[]`.  A number is
tested as the exact decimal of the text; the rounding of `JSON.parse` to a
double, under which a nonzero decimal below the smallest double reads as `0`,
is left out. -/
def Json.falsy : Json → Bool
  | Json.null => true
  | Json.bool b => !b
  | Json.num m _ => m == 0
  | Json.str s => s == ""
  | Json.arr _ => false
  | Json.obj _ => false

/-- The integer `m * 10 ^ e`, when that number is an integer. -/
def decimalToInt (m e : Int) : Option Int :=
  if 0 ≤ e then some (m * 10 ^ e.toNat)
  else if m % 10 ^ (-e).toNat = 0 then some (m / 10 ^ (-e).toNat)
  else none

/-- A parsed value as a primitive plan field; `none` for arrays, objects and
numbers that are not integers. -/
def Json.toPrim : Json → Option JSVal
  | Json.null => some JSVal.null
  | Json.bool b => some (JSVal.bool b)
  | Json.num m e => (decimalToInt m e).map JSVal.num
  | Json.str s => some (JSVal.str s)
  | Json.arr _ => none
  | Json.obj _ => none

/-- The members of a parsed object as a `data` object with primitive
fields. -/
def asData : List (String × Json) → Option PlanData
  | [] => some []
  | (k, v) :: rest =>
    match v.toPrim, asData rest with
    | some p, some d => some ((k, p) :: d)
    | _, _ => none

/-- A parsed value as the `city` of a plan: a string or `null`. -/
def asCity : Json → Option (Option String)
  | Json.str s => some (some s)
  | Json.null => some none
  | _ => none

/-- A parsed value as a plan: an object with exactly the six properties
`addPlan` creates, in that order and of those kinds. -/
def asPlan : Json → Option Plan
  | Json.obj [(k1, Json.num m e), (k2, Json.str type), (k3, Json.obj d),
              (k4, Json.str savedAt), (k5, Json.str country), (k6, city)] =>
    if k1 = "id" ∧ k2 = "type" ∧ k3 = "data" ∧ k4 = "savedAt" ∧ k5 = "country" ∧
        k6 = "city" then
      match decimalToInt m e, asData d, asCity city with
      | some id, some data, some c =>
        some { id := id, type := type, data := data, savedAt := savedAt,
               country := country, city := c }
      | _, _, _ => none
    else none
  | _ => none

/-- The elements of a parsed array as plans. -/
def asPlanList : List Json → Option (List Plan)
  | [] => some []
  | v :: rest =>
    match asPlan v, asPlanList rest with
    | some p, some ps => some (p :: ps)
    | _, _ => none

/-- What evaluating the initializer of `savedPlans` (source line 21) gives. -/
inductive LoadResult where
  /-- The exception `JSON.parse` throws escapes the initializer. -/
  | threw (e : JSError) : LoadResult
  /-- The property `savedPlans` starts as this sequence of plans. -/
  | plans (ps : List Plan) : LoadResult
  /-- The property `savedPlans` starts as a truthy value that is not an array
  of plans as `addPlan` builds them. -/
  | other (v : Json) : LoadResult

/-- Source line 21:
`JSON.parse(localStorage.getItem("wanderlust_plans")) || []`.  For an absent
slot `getItem` returns `null`, which `JSON.parse` reads as the text `null`. -/
def loadSavedPlans (st : Storage) : LoadResult :=
  match parseJSON
      (match st.getItem plansKey with
       | some text => text.data
       | none => "null".data) with
  | none => LoadResult.threw JSError.syntaxError
  | some v =>
    if v.falsy then LoadResult.plans []
    else
      match v with
      | Json.arr elems =>
        match asPlanList elems with
        | some ps => LoadResult.plans ps
        | none => LoadResult.other v
      | _ => LoadResult.other v

/-- The properties of a `data` object that `JSON.stringify` writes: those
whose value is not `undefined`. -/
def definedFields (d : PlanData) : PlanData :=
  d.filter (fun kv => kv.2 != JSVal.undefined)

/-- The plan with the `undefined` properties of its `data` left out. -/
def Plan.written (p : Plan) : Plan :=
  { p with data := definedFields p.data }

/-- No plan of the sequence has two `data` properties of the same name. -/
def DataNamesDistinct (ps : List Plan) : Prop :=
  ∀ p ∈ ps, (p.data.map (fun kv => kv.1)).Nodup

instance : DecidablePred DataNamesDistinct := fun ps => by
  unfold DataNamesDistinct
  infer_instance

/-! ## Texts and the values they denote -/

/-- A text that does not continue a number: it is empty or starts with a
comma, a closing bracket or a closing brace. -/
def Delimited (rest : List Char) : Prop :=
  ∀ c ∈ rest.head?, c = ',' ∨ c = ']' ∨ c.toNat = 125

/-- The text denotes the value: `parseValue` reads the value from the text,
whatever delimited text follows, with any bound on nested calls that is at
least the length of the text. -/
def Parses (t : List Char) (v : Json) : Prop :=
  ∀ fuel rest, t.length ≤ fuel → Delimited rest →
    parseValue fuel (t ++ rest) = some (v, rest)

/-- The value a primitive plan field is read back as. -/
def primJson : JSVal → Json
  | JSVal.undefined => Json.null
  | JSVal.null => Json.null
  | JSVal.bool b => Json.bool b
  | JSVal.num n => Json.num n 0
  | JSVal.str s => Json.str s

/-- The text of an object member: its name, a colon, the text of its value. -/
def memberText (m : String × List Char × Json) : List Char :=
  quoteJSON m.1 ++ ':' :: m.2.1

/-- The member a member text denotes. -/
def memberValue (m : String × List Char × Json) : String × Json :=
  (m.1, m.2.2)

/-- The members `JSON.stringify` writes for a `data` object: for each property
that is not `undefined`, its name, the text of its value and the value that
text denotes. -/
def dataMembers (d : PlanData) : List (String × List Char × Json) :=
  d.filterMap (fun kv => (valJSON kv.2).map (fun t => (kv.1, t, primJson kv.2)))

/-- The value the text of a `data` object denotes. -/
def dataValue (d : PlanData) : Json :=
  Json.obj ((definedFields d).map (fun kv => (kv.1, primJson kv.2)))

/-- The value the text of a `city` denotes. -/
def cityValue : Option String → Json
  | some c => Json.str c
  | none => Json.null

/-- The value the text of a plan denotes. -/
def planValue (p : Plan) : Json :=
  Json.obj
    [("id", Json.num p.id 0), ("type", Json.str p.type), ("data", dataValue p.data),
     ("savedAt", Json.str p.savedAt), ("country", Json.str p.country),
     ("city", cityValue p.city)]

/-! ## Counters, page operations and clicks -/

/-- The counter elements of the page show the counts of the current
`savedPlans`: the badge and the "all" filter its length, the badge hidden
exactly when it is 0, and the three type filters the number of plans of their
type. -/
def CountersFresh (s : AppState) : Prop :=
  s.dom.plansCount = toString s.savedPlans.length ∧
  s.dom.plansCountHidden = decide (s.savedPlans.length = 0) ∧
  s.dom.filterAllCount = toString s.savedPlans.length ∧
  s.dom.filterHolidayCount = toString (countOfType s.savedPlans "holiday") ∧
  s.dom.filterEventCount = toString (countOfType s.savedPlans "event") ∧
  s.dom.filterLwCount = toString (countOfType s.savedPlans "longweekend")

instance : DecidablePred CountersFresh := fun s => by
  unfold CountersFresh
  infer_instance

/-- Whether a type is one of the three the application saves. -/
def knownType (t : String) : Bool :=
  t == "holiday" || t == "event" || t == "longweekend"

/-- Source lines 426-435: the click listener of `#clear-selection-btn`, as far
as the state goes. -/
def clearSelection (s : AppState) : AppState :=
  { s with selectedCountry := none, selectedCity := none }

/-- One call the page makes on the store: a save toggle, a removal or the
clearing of all plans. -/
inductive UiOp where
  | holiday (env : Env) (holiday : PlanData) : UiOp
  | event (env : Env) (card : EventCard) : UiOp
  | longWeekend (env : Env) (card : LwCard) : UiOp
  | remove (env : Env) (id : Int) : UiOp
  | clear (env : Env) : UiOp
  deriving DecidableEq, Repr

/-- The outcome of one call the page makes. -/
def uiStep (s : AppState) : UiOp → Outcome
  | UiOp.holiday env holiday => saveHoliday s env holiday
  | UiOp.event env card => saveEvent s env card
  | UiOp.longWeekend env card => saveLongWeekend s env card
  | UiOp.remove env id => removePlan s env id
  | UiOp.clear env => clearAllPlans s env

/-- The state after a sequence of calls the page makes. -/
def uiRun (s : AppState) : List UiOp → AppState
  | [] => s
  | op :: ops => uiRun (uiStep s op).state ops

/-- Where a click on the save button of a holiday card lands: on the icon
inside the button or on the button element itself. -/
inductive ClickTarget where
  | icon : ClickTarget
  | button : ClickTarget
  deriving DecidableEq, Repr

/-- The value of the property `k` of a parsed object, as `saveHoliday` reads
it: `undefined` when the object has no such member.  The result is `none` when
the member is an array, an object or a number that is not an integer, values
the plan fields of this development do not represent. -/
def readMember (members : List (String × Json)) (k : String) : Option JSVal :=
  match members.lookup k with
  | none => some JSVal.undefined
  | some v => v.toPrim

/-- The first argument of a `saveHoliday` call made by a click listener: the
value `JSON.parse` gave for the `data-holiday` attribute. -/
inductive HolidayArgument where
  /-- The value `null`. -/
  | null : HolidayArgument
  /-- A value whose properties can be read; `saveHoliday` reads `name`,
  `localName` and `date`, and these are kept. -/
  | object (holiday : PlanData) : HolidayArgument
  deriving DecidableEq, Repr

/-- A parsed `data-holiday` value as an argument of `saveHoliday`.  Of an
object the three properties `saveHoliday` reads are kept; of a boolean, a
number, a string or an array each of the three reads gives `undefined`.  The
result is `none` for an object whose `name`, `localName` or `date` is outside
the values `readMember` represents. -/
def holidayArgument : Json → Option HolidayArgument
  | Json.null => some HolidayArgument.null
  | Json.obj members =>
    match readMember members "name", readMember members "localName",
        readMember members "date" with
    | some name, some localName, some date =>
      some (HolidayArgument.object
        [("name", name), ("localName", localName), ("date", date)])
    | _, _, _ => none
  | _ => some (HolidayArgument.object [])

/-- The call `this.saveHoliday(holiday, btn)` a listener makes.  When the
holiday is `null`, reading `holiday.date` in the test `isSaved`, or
`holiday.name` while the argument of `addPlan` is built, throws a TypeError
before any effect. -/
def saveHolidayParsed (s : AppState) (env : Env) : HolidayArgument → Outcome
  | HolidayArgument.null => { state := s, completion := Completion.threw JSError.typeError }
  | HolidayArgument.object holiday => saveHoliday s env holiday

/-- What running one click listener did: the outcome, and the number of
`saveHoliday` calls the listener made. -/
structure ListenerRun where
  outcome : Outcome
  calls : Nat
  deriving DecidableEq, Repr

/-- Source lines 1008-1013: the click listener `renderHolidays` attaches to
each `.holiday-action-btn`,
`const holiday = JSON.parse(btn.getAttribute("data-holiday")); this.saveHoliday(holiday, btn)`.
The argument `attr` is what `getAttribute` returns: the text of the
attribute, or `null` (here `none`) when the button has no such attribute,
which `JSON.parse` reads as the text `null`.  When the text is not valid JSON,
`JSON.parse` throws and `saveHoliday` is not called.  Source line 990 writes
the attribute as the text of `JSON.stringify(holiday)` between single quotes,
so the attribute of a holiday with an apostrophe in a field ends at that
apostrophe.  The result is `none` when `holidayArgument` is. -/
def holidayButtonListener (s : AppState) (env : Env) (attr : Option String) :
    Option ListenerRun :=
  match parseJSON
      (match attr with
       | some text => text.data
       | none => "null".data) with
  | none =>
    some { outcome := { state := s, completion := Completion.threw JSError.syntaxError }
           calls := 0 }
  | some v =>
    (holidayArgument v).map
      (fun holiday => { outcome := saveHolidayParsed s env holiday, calls := 1 })

/-- Whether `e.target.closest(".holiday-action-btn")` still finds the button
when the click reaches `document`.  The button is its own closest match.  The
icon is inside the button until `saveHoliday` assigns the button's
`innerHTML`, which it does just before it returns normally and not when it
throws. -/
def closestFindsButton (target : ClickTarget) (first : Completion) : Bool :=
  match target, first with
  | ClickTarget.button, _ => true
  | ClickTarget.icon, Completion.returned _ => false
  | ClickTarget.icon, Completion.threw _ => true

/-- Source lines 1304-1328: the click listener `setupSaveButtons` attaches to
`document`, for a click on the save button of a holiday card.  When `closest`
finds the button it reads `data-holiday`; the guard `if (holidayData)` skips
an absent attribute and an empty one; otherwise `JSON.parse` reads the text,
throwing when it is not valid JSON, and `saveHoliday` is called with the
value.  The tests for event cards and long-weekend cards, which follow when
nothing was thrown, find nothing.  The result is `none` when
`holidayArgument` is. -/
def delegatedListener (s : AppState) (env : Env) (attr : Option String)
    (findsButton : Bool) : Option ListenerRun :=
  if findsButton then
    match attr with
    | none =>
      some { outcome := { state := s, completion := Completion.returned JSVal.undefined }
             calls := 0 }
    | some text =>
      if text = "" then
        some { outcome := { state := s, completion := Completion.returned JSVal.undefined }
               calls := 0 }
      else
        match parseJSON text.data with
        | none =>
          some { outcome := { state := s, completion := Completion.threw JSError.syntaxError }
                 calls := 0 }
        | some v =>
          (holidayArgument v).map
            (fun holiday => { outcome := saveHolidayParsed s env holiday, calls := 1 })
  else
    some { outcome := { state := s, completion := Completion.returned JSVal.undefined }
           calls := 0 }

/-- A click on the save button of a rendered holiday card whose
`data-holiday` attribute reads `attr`, with both listeners installed: the
button's own listener runs first, then the click bubbles to `document` and the
delegated listener runs (also when the first one threw).  The runs of the two
listeners, in that order; `none` when a listener's result is. -/
def clickListeners (s : AppState) (target : ClickTarget) (env1 env2 : Env)
    (attr : Option String) : Option (ListenerRun × ListenerRun) :=
  match holidayButtonListener s env1 attr with
  | none => none
  | some first =>
    match delegatedListener first.outcome.state env2 attr
        (closestFindsButton target first.outcome.completion) with
    | none => none
    | some second => some (first, second)

/-- The state such a click leaves behind. -/
def clickHolidayButton (s : AppState) (target : ClickTarget) (env1 env2 : Env)
    (attr : Option String) : Option AppState :=
  (clickListeners s target env1 env2 attr).map (fun runs => runs.2.outcome.state)

/-- The number of `saveHoliday` calls such a click makes. -/
def saveHolidayCalls (s : AppState) (target : ClickTarget) (env1 env2 : Env)
    (attr : Option String) : Option Nat :=
  (clickListeners s target env1 env2 attr).map (fun runs => runs.1.calls + runs.2.calls)

/-- The `data-holiday` attribute of the card of the mock holiday
`Christmas Day` (source lines 1038-1046), for the year 2025 and Egypt
selected: the text `JSON.stringify` gives for the holiday. -/
def christmasAttribute : String :=
  "\x7b\"date\":\"2025-12-25\",\"localName\":\"Christmas Day\",\"name\":\"Christmas Day\",\"countryCode\":\"EG\",\"fixed\":true,\"global\":true,\"types\":[\"Public\"]\x7d"

/-- The `data-holiday` attribute of the card of the mock holiday
`New Year's Day` (source lines 1020-1028), for the year 2025: the text
`JSON.stringify` gives for the holiday up to the apostrophe of its
`localName`, where the single-quoted attribute of source line 990 ends. -/
def newYearAttribute : String :=
  "\x7b\"date\":\"2025-01-01\",\"localName\":\"New Year"

/-- Source lines 360-369: the view names, the keys of the table `titles` of
`updatePageTitle`. -/
def viewNames : List String :=
  ["dashboard", "holidays", "events", "weather", "long-weekends", "currency",
   "sun-times", "my-plans"]

/-- Source line 1596: the view name `renderPlans` puts in the `onclick` of the
empty-state button, `filter === "all" ? "dashboard" : filter + "s"`. -/
def emptyStateView (filter : String) : String :=
  if filter == "all" then "dashboard" else filter ++ "s"

/-- A holiday and an event saved, and a long weekend saved and unsaved
again. -/
def sampleSession : List UiOp :=
  [UiOp.holiday sampleEnv sampleHoliday,
   UiOp.event laterEnv
     { title := "Music Night in Cairo", dateText := "Sat, Mar 1",
       locationText := "Cairo Opera House", category := some "Music" },
   UiOp.longWeekend laterEnv
     { title := "Spring break", dates := "Apr 18 - Apr 21", duration := "4 days" },
   UiOp.longWeekend laterEnv
     { title := "Spring break", dates := "Apr 18 - Apr 21", duration := "4 days" }]

/-! ## Basic facts -/

theorem saveToStorage_savedPlans (s : AppState) (q : Bool) :
    (saveToStorage s q).state.savedPlans = s.savedPlans := by
  unfold saveToStorage updatePlansCounter
  cases q <;> simp

theorem saveToStorage_selection (s : AppState) (q : Bool) :
    (saveToStorage s q).state.selectedCountry = s.selectedCountry ∧
      (saveToStorage s q).state.selectedCity = s.selectedCity := by
  unfold saveToStorage updatePlansCounter
  cases q <;> simp

theorem saveToStorage_completion (s : AppState) (q : Bool) :
    (saveToStorage s q).completion =
      if q then Completion.returned JSVal.undefined
      else Completion.threw JSError.quotaExceeded := by
  unfold saveToStorage
  cases q <;> simp

theorem addPlan_savedPlans_some (s : AppState) (env : Env) (type : String) (data : PlanData)
    (c : Country) (h : s.selectedCountry = some c) :
    (addPlan s env type data).state.savedPlans =
      s.savedPlans ++ [{ id := env.now, type := type, data := data, savedAt := env.isoNow,
                         country := c.code, city := s.selectedCity }] := by
  unfold addPlan
  rw [h]
  simp only [saveToStorage_completion]
  cases env.quotaOk <;> simp [saveToStorage_savedPlans, showToast]

theorem addPlan_savedPlans_none (s : AppState) (env : Env) (type : String) (data : PlanData)
    (h : s.selectedCountry = none) :
    (addPlan s env type data).state = s := by
  unfold addPlan
  rw [h]

theorem removePlan_savedPlans (s : AppState) (env : Env) (id : Int) :
    (removePlan s env id).state.savedPlans = s.savedPlans.filter (fun plan => plan.id != id) := by
  unfold removePlan
  rw [saveToStorage_savedPlans]

theorem clearAllPlans_savedPlans (s : AppState) (env : Env) :
    (clearAllPlans s env).state.savedPlans = [] := by
  unfold clearAllPlans
  simp only [saveToStorage_completion]
  cases env.quotaOk <;> simp [saveToStorage_savedPlans, showToast]

theorem addPlan_selection (s : AppState) (env : Env) (type : String) (data : PlanData) :
    (addPlan s env type data).state.selectedCountry = s.selectedCountry ∧
      (addPlan s env type data).state.selectedCity = s.selectedCity := by
  unfold addPlan
  cases h : s.selectedCountry with
  | none => simp [h]
  | some c =>
    simp only [saveToStorage_completion]
    cases env.quotaOk <;> simp [saveToStorage_selection, showToast]

theorem addPlan_completion_some (s : AppState) (env : Env) (type : String) (data : PlanData)
    (c : Country) (h : s.selectedCountry = some c) :
    (addPlan s env type data).completion =
      if env.quotaOk then Completion.returned JSVal.undefined
      else Completion.threw JSError.quotaExceeded := by
  unfold addPlan
  rw [h]
  simp only [saveToStorage_completion]
  cases env.quotaOk <;> simp

theorem keyStored_eq_false (ps : List Plan) (type : String) (data : PlanData) :
    keyStored ps type data = false ↔
      ∀ p ∈ ps, sameKey p.type p.data type data = false := by
  unfold keyStored
  simp [List.any_eq_false]

theorem step_preserves_unique (s : AppState) (op : Op)
    (hu : NaturalKeysUnique s.savedPlans)
    (hg : ∀ env type data, op = Op.add env type data →
      keyStored s.savedPlans type data = false) :
    NaturalKeysUnique (step s op).state.savedPlans := by
  cases op with
  | add env type data =>
    simp only [step]
    cases hc : s.selectedCountry with
    | none => rw [addPlan_savedPlans_none s env type data hc]; exact hu
    | some c =>
      rw [addPlan_savedPlans_some s env type data c hc]
      have hk := (keyStored_eq_false _ _ _).1 (hg env type data rfl)
      unfold NaturalKeysUnique at hu ⊢
      rw [List.pairwise_append]
      refine ⟨hu, List.pairwise_singleton _ _, ?_⟩
      intro a ha b hb
      rw [List.mem_singleton] at hb
      subst hb
      exact hk a ha
  | remove env id =>
    simp only [step]
    rw [removePlan_savedPlans]
    exact List.Pairwise.filter _ hu
  | clear env =>
    simp only [step]
    rw [clearAllPlans_savedPlans]
    exact List.Pairwise.nil

theorem run_preserves_unique (ops : List Op) :
    ∀ s : AppState, NaturalKeysUnique s.savedPlans → addsUnsaved s ops = true →
      NaturalKeysUnique (run s ops).savedPlans := by
  induction ops with
  | nil => intro s hu _; exact hu
  | cons op ops ih =>
    intro s hu hg
    cases op with
    | add env type data =>
      simp only [addsUnsaved, Bool.and_eq_true, Bool.not_eq_true'] at hg
      simp only [run]
      apply ih
      · apply step_preserves_unique s _ hu
        intro env2 type2 data2 he
        cases he
        exact hg.1
      · exact hg.2
    | remove env id =>
      simp only [addsUnsaved] at hg
      simp only [run]
      apply ih _ _ hg
      apply step_preserves_unique s (Op.remove env id) hu
      intro env2 type2 data2 he
      cases he
    | clear env =>
      simp only [addsUnsaved] at hg
      simp only [run]
      apply ih _ _ hg
      apply step_preserves_unique s (Op.clear env) hu
      intro env2 type2 data2 he
      cases he

/-! ## C1: uniqueness of natural keys -/

/-- C1, as stated, fails: `addPlan` makes no duplicate check, so two calls
with the same holiday starting from the empty store leave two plans of type
holiday with the same date. -/
theorem addPlan_twice_not_unique :
    ¬ NaturalKeysUnique
        (run AppState.initial
          [Op.add sampleEnv "holiday" sampleHoliday,
           Op.add laterEnv "holiday" sampleHoliday]).savedPlans := by
  decide

/-- C1, amended: starting from an empty store, after every sequence of calls
in which each `addPlan` is made while no stored plan has the type and natural
key of its arguments (the check the callers `saveHoliday`, `saveEvent` and
`saveLongWeekend` make), no two plans of `savedPlans` share both type and
natural key. -/
theorem addPlan_unsaved_keys_unique (s : AppState) (ops : List Op)
    (hempty : s.savedPlans = []) (hg : addsUnsaved s ops = true) :
    NaturalKeysUnique (run s ops).savedPlans := by
  apply run_preserves_unique ops s _ hg
  rw [hempty]
  exact List.Pairwise.nil

/-- C1, amended, on a holiday followed by an event. -/
theorem addPlan_unsaved_keys_unique_witness :
    NaturalKeysUnique
      (run AppState.initial
        [Op.add sampleEnv "holiday" sampleHoliday,
         Op.add laterEnv "event" sampleEvent]).savedPlans :=
  addPlan_unsaved_keys_unique AppState.initial
    [Op.add sampleEnv "holiday" sampleHoliday, Op.add laterEnv "event" sampleEvent]
    rfl (by decide)

/-! ## C2: calling `addPlan` twice with the same arguments -/

/-- C2, as stated, fails: after two `addPlan` calls with the same holiday and
the same selection, two stored plans have that type and date, and the second
call has changed `savedPlans`. -/
theorem addPlan_twice_stores_two :
    ((addPlan (addPlan AppState.initial sampleEnv "holiday" sampleHoliday).state
        sampleEnv "holiday" sampleHoliday).state.savedPlans.filter
      (fun p => sameKey p.type p.data "holiday" sampleHoliday)).length = 2 ∧
    (addPlan (addPlan AppState.initial sampleEnv "holiday" sampleHoliday).state
        sampleEnv "holiday" sampleHoliday).state.savedPlans ≠
      (addPlan AppState.initial sampleEnv "holiday" sampleHoliday).state.savedPlans := by
  decide

/-- C2, amended: `addPlan` makes no duplicate check.  For every store state
with a non-null `selectedCountry`, calling `addPlan` twice with the same
`(type, data)` appends two plans with that type and data, one per call, and
the second call completes like the first: it returns `undefined` when the
storage accepts its write, never a duplicate signal. -/
theorem addPlan_twice_appends_two (s : AppState) (c : Country) (e1 e2 : Env)
    (type : String) (data : PlanData) (hc : s.selectedCountry = some c) :
    (addPlan (addPlan s e1 type data).state e2 type data).state.savedPlans =
        s.savedPlans ++
          [{ id := e1.now, type := type, data := data, savedAt := e1.isoNow,
             country := c.code, city := s.selectedCity },
           { id := e2.now, type := type, data := data, savedAt := e2.isoNow,
             country := c.code, city := s.selectedCity }] ∧
      (addPlan (addPlan s e1 type data).state e2 type data).state.savedPlans.length =
        (addPlan s e1 type data).state.savedPlans.length + 1 ∧
      (e2.quotaOk = true →
        (addPlan (addPlan s e1 type data).state e2 type data).completion =
          Completion.returned JSVal.undefined) := by
  have h1 := addPlan_savedPlans_some s e1 type data c hc
  have hsel := addPlan_selection s e1 type data
  have hc1 : (addPlan s e1 type data).state.selectedCountry = some c := by
    rw [hsel.1, hc]
  have h2 := addPlan_savedPlans_some (addPlan s e1 type data).state e2 type data c hc1
  refine ⟨?_, ?_, ?_⟩
  · rw [h2, h1, hsel.2]
    simp
  · rw [h2]
    simp
  · intro hq
    rw [addPlan_completion_some _ e2 type data c hc1, hq]
    rfl

/-- C2, amended, on the sample holiday added twice to the initial store. -/
theorem addPlan_twice_appends_two_witness :
    (addPlan (addPlan AppState.initial sampleEnv "holiday" sampleHoliday).state
        laterEnv "holiday" sampleHoliday).state.savedPlans.length =
      (addPlan AppState.initial sampleEnv "holiday" sampleHoliday).state.savedPlans.length + 1 ∧
    (addPlan (addPlan AppState.initial sampleEnv "holiday" sampleHoliday).state
        laterEnv "holiday" sampleHoliday).completion =
      Completion.returned JSVal.undefined :=
  ⟨(addPlan_twice_appends_two AppState.initial
      { code := "EG", name := "Egypt", flag := "https://flagcdn.com/w80/eg.png",
        capital := some "Cairo" }
      sampleEnv laterEnv "holiday" sampleHoliday rfl).2.1,
   (addPlan_twice_appends_two AppState.initial
      { code := "EG", name := "Egypt", flag := "https://flagcdn.com/w80/eg.png",
        capital := some "Cairo" }
      sampleEnv laterEnv "holiday" sampleHoliday rfl).2.2 rfl⟩

/-! ## Ids along a sequence of calls -/

theorem step_ids_pairwise (R : Int → Int → Prop) (s : AppState) (op : Op)
    (hs : (s.savedPlans.map (fun p => p.id)).Pairwise R)
    (hnew : ∀ env type data, op = Op.add env type data →
      ∀ p ∈ s.savedPlans, R p.id env.now) :
    ((step s op).state.savedPlans.map (fun p => p.id)).Pairwise R := by
  cases op with
  | add env type data =>
    simp only [step]
    cases hc : s.selectedCountry with
    | none => rw [addPlan_savedPlans_none s env type data hc]; exact hs
    | some c =>
      rw [addPlan_savedPlans_some s env type data c hc, List.map_append,
        List.pairwise_append]
      refine ⟨hs, by simp, ?_⟩
      intro a ha b hb
      simp only [List.map_cons, List.map_nil, List.mem_singleton] at hb
      subst hb
      obtain ⟨p, hp, rfl⟩ := List.mem_map.1 ha
      exact hnew env type data rfl p hp
  | remove env id =>
    simp only [step]
    rw [removePlan_savedPlans]
    exact List.Pairwise.sublist (List.Sublist.map _ (List.filter_sublist _)) hs
  | clear env =>
    simp only [step]
    rw [clearAllPlans_savedPlans]
    exact List.Pairwise.nil

theorem created_ids_sublist (ops : List Op) :
    ∀ s : AppState, ((created s ops).map (fun p => p.id)).Sublist (addClocks ops) := by
  induction ops with
  | nil => intro s; exact List.Sublist.slnil
  | cons op ops ih =>
    intro s
    cases op with
    | add env type data =>
      simp only [created, addClocks, List.map_append]
      cases hc : s.selectedCountry with
      | none =>
        rw [addPlan_savedPlans_none s env type data hc]
        simp only [List.drop_length, List.map_nil, List.nil_append]
        exact List.Sublist.cons _ (ih s)
      | some c =>
        rw [addPlan_savedPlans_some s env type data c hc]
        simp only [List.drop_left, List.map_cons, List.map_nil, List.singleton_append]
        exact List.Sublist.cons₂ _ (ih _)
    | remove env id =>
      simp only [created, addClocks]
      exact ih _
    | clear env =>
      simp only [created, addClocks]
      exact ih _

/-! ## C3: ids follow the clock -/

/-- C3, as stated, fails: the clock of the two calls is non-decreasing (it
reads 1000 both times), and the plan created first does not get a smaller id
than the plan created second: both get the id 1000. -/
theorem addPlan_same_tick_same_id :
    (addClocks [Op.add sampleEnv "holiday" sampleHoliday,
        Op.add sampleEnv "event" sampleEvent]).Pairwise (fun a b => a ≤ b) ∧
    (created AppState.initial
        [Op.add sampleEnv "holiday" sampleHoliday,
         Op.add sampleEnv "event" sampleEvent]).map (fun p => p.id) = [1000, 1000] ∧
    ¬ ((created AppState.initial
        [Op.add sampleEnv "holiday" sampleHoliday,
         Op.add sampleEnv "event" sampleEvent]).map
          (fun p => p.id)).Pairwise (fun a b => a < b) := by
  decide

/-- C3, amended: for every store state and every sequence of calls, the plans
created by its `addPlan` calls, taken in the order they were added, have
strictly increasing ids when the clock readings of those calls are strictly
increasing; under a clock that is only non-decreasing their ids are
non-decreasing (`p1.id ≤ p2.id`). -/
theorem addPlan_ids_follow_clock (s : AppState) (ops : List Op) :
    ((addClocks ops).Pairwise (fun a b => a < b) →
      ((created s ops).map (fun p => p.id)).Pairwise (fun a b => a < b)) ∧
    ((addClocks ops).Pairwise (fun a b => a ≤ b) →
      ((created s ops).map (fun p => p.id)).Pairwise (fun a b => a ≤ b)) :=
  ⟨fun h => List.Pairwise.sublist (created_ids_sublist ops s) h,
   fun h => List.Pairwise.sublist (created_ids_sublist ops s) h⟩

/-- C3, amended, on two additions one millisecond apart, with a removal in
between. -/
theorem addPlan_ids_follow_clock_witness :
    ((created AppState.initial
        [Op.add sampleEnv "holiday" sampleHoliday,
         Op.remove sampleEnv 1000,
         Op.add laterEnv "event" sampleEvent]).map
          (fun p => p.id)).Pairwise (fun a b => a < b) ∧
    ((created AppState.initial
        [Op.add sampleEnv "holiday" sampleHoliday,
         Op.remove sampleEnv 1000,
         Op.add laterEnv "event" sampleEvent]).map
          (fun p => p.id)).Pairwise (fun a b => a ≤ b) :=
  ⟨(addPlan_ids_follow_clock AppState.initial
      [Op.add sampleEnv "holiday" sampleHoliday, Op.remove sampleEnv 1000,
       Op.add laterEnv "event" sampleEvent]).1 (by decide),
   (addPlan_ids_follow_clock AppState.initial
      [Op.add sampleEnv "holiday" sampleHoliday, Op.remove sampleEnv 1000,
       Op.add laterEnv "event" sampleEvent]).2 (by decide)⟩

/-! ## C4: ids are pairwise distinct -/

theorem step_preserves_distinct (s : AppState) (op : Op)
    (hd : IdsDistinct s.savedPlans)
    (hnew : ∀ env type data, op = Op.add env type data →
      ∀ p ∈ s.savedPlans, p.id ≠ env.now) :
    IdsDistinct (step s op).state.savedPlans := by
  unfold IdsDistinct at hd ⊢
  exact step_ids_pairwise (fun a b => a ≠ b) s op hd hnew

theorem run_preserves_distinct (ops : List Op) :
    ∀ s : AppState, IdsDistinct s.savedPlans → addsFreshId s ops = true →
      IdsDistinct (run s ops).savedPlans := by
  induction ops with
  | nil => intro s hd _; exact hd
  | cons op ops ih =>
    intro s hd hf
    simp only [run]
    cases op with
    | add env type data =>
      simp only [addsFreshId, Bool.and_eq_true, List.all_eq_true, bne_iff_ne] at hf
      apply ih _ _ hf.2
      apply step_preserves_distinct s (Op.add env type data) hd
      intro env2 type2 data2 he p hp
      cases he
      exact hf.1 p hp
    | remove env id =>
      simp only [addsFreshId] at hf
      apply ih _ _ hf
      apply step_preserves_distinct s (Op.remove env id) hd
      intro env2 type2 data2 he
      cases he
    | clear env =>
      simp only [addsFreshId] at hf
      apply ih _ _ hf
      apply step_preserves_distinct s (Op.clear env) hd
      intro env2 type2 data2 he
      cases he

/-- C4, as stated, fails: the empty store has pairwise distinct ids, and two
`addPlan` calls that read the same clock value leave two plans with one id. -/
theorem addPlan_same_tick_not_distinct :
    IdsDistinct AppState.initial.savedPlans ∧
    ¬ IdsDistinct
        (run AppState.initial
          [Op.add sampleEnv "holiday" sampleHoliday,
           Op.add sampleEnv "event" sampleEvent]).savedPlans := by
  decide

/-- C4, amended: from a store whose ids are pairwise distinct, every sequence
of `addPlan`, `removePlan` and `clearAllPlans` calls in which each `addPlan`
reads a clock value that is not the id of a plan stored at that call leads to
a store whose ids are pairwise distinct. -/
theorem fresh_clock_ids_distinct (s : AppState) (ops : List Op)
    (hd : IdsDistinct s.savedPlans) (hf : addsFreshId s ops = true) :
    IdsDistinct (run s ops).savedPlans :=
  run_preserves_distinct ops s hd hf

/-- C4, amended, on an addition, a second one a millisecond later, and the
removal of the first. -/
theorem fresh_clock_ids_distinct_witness :
    IdsDistinct
      (run AppState.initial
        [Op.add sampleEnv "holiday" sampleHoliday,
         Op.add laterEnv "event" sampleEvent,
         Op.remove laterEnv 1000]).savedPlans :=
  fresh_clock_ids_distinct AppState.initial
    [Op.add sampleEnv "holiday" sampleHoliday, Op.add laterEnv "event" sampleEvent,
     Op.remove laterEnv 1000]
    (by decide) (by decide)

/-! ## C5: `addPlan` appends -/

/-- C5: with a non-null `selectedCountry`, `addPlan(type, data)` leaves
`savedPlans` equal to the previous sequence followed by exactly one new plan,
whose type and data are the arguments, whose id and `savedAt` are the clock
readings of the call, and whose country and city are `selectedCountry.code`
and `selectedCity` as they were at the call; every previously stored plan is
at the position it had. -/
theorem addPlan_appends (s : AppState) (c : Country) (env : Env) (type : String)
    (data : PlanData) (hc : s.selectedCountry = some c) :
    ∃ p : Plan,
      (addPlan s env type data).state.savedPlans = s.savedPlans ++ [p] ∧
      p.type = type ∧ p.data = data ∧ p.country = c.code ∧ p.city = s.selectedCity ∧
      p.id = env.now ∧ p.savedAt = env.isoNow ∧
      ∀ i, i < s.savedPlans.length →
        (addPlan s env type data).state.savedPlans[i]? = s.savedPlans[i]? := by
  refine ⟨{ id := env.now, type := type, data := data, savedAt := env.isoNow,
            country := c.code, city := s.selectedCity },
    addPlan_savedPlans_some s env type data c hc, rfl, rfl, rfl, rfl, rfl, rfl, ?_⟩
  intro i hi
  rw [addPlan_savedPlans_some s env type data c hc]
  exact List.getElem?_append_left hi

/-- C5 on the sample event added to the store of three plans. -/
theorem addPlan_appends_witness :
    ∃ p : Plan,
      (addPlan threePlans sampleEnv "event" sampleEvent).state.savedPlans =
        threePlans.savedPlans ++ [p] ∧
      p.type = "event" ∧ p.data = sampleEvent ∧ p.country = "EG" ∧
      p.city = threePlans.selectedCity ∧
      p.id = sampleEnv.now ∧ p.savedAt = sampleEnv.isoNow ∧
      ∀ i, i < threePlans.savedPlans.length →
        (addPlan threePlans sampleEnv "event" sampleEvent).state.savedPlans[i]? =
          threePlans.savedPlans[i]? :=
  addPlan_appends threePlans
    { code := "EG", name := "Egypt", flag := "https://flagcdn.com/w80/eg.png",
      capital := some "Cairo" }
    sampleEnv "event" sampleEvent (by decide)

/-! ## C6: the postcondition of `removePlan` -/

/-- C6: after `removePlan(id)` no plan of `savedPlans` has that id, and
`savedPlans` is the previous sequence with the plans of that id deleted: it is
a subsequence of the previous one (relative order kept) that still contains
every plan with another id, as often as before. -/
theorem removePlan_deletes_id (s : AppState) (env : Env) (id : Int) :
    (∀ p ∈ (removePlan s env id).state.savedPlans, p.id ≠ id) ∧
    (removePlan s env id).state.savedPlans =
      s.savedPlans.filter (fun p => decide (p.id ≠ id)) ∧
    (removePlan s env id).state.savedPlans.Sublist s.savedPlans ∧
    (∀ p : Plan, p.id ≠ id →
      (removePlan s env id).state.savedPlans.count p = s.savedPlans.count p) := by
  rw [removePlan_savedPlans]
  refine ⟨?_, ?_, List.filter_sublist _, ?_⟩
  · intro p hp
    have := (List.mem_filter.1 hp).2
    simpa using this
  · apply List.filter_congr
    intro p _
    by_cases h : p.id = id <;> simp [bne, h]
  · intro p hp
    rw [List.count_filter]
    simpa using hp

/-! ## C7: what `removePlan` returns -/

theorem removePlan_completion (s : AppState) (env : Env) (id : Int) :
    (removePlan s env id).completion =
      if env.quotaOk then Completion.returned JSVal.undefined
      else Completion.threw JSError.quotaExceeded := by
  unfold removePlan
  rw [saveToStorage_completion]

/-- C7, as stated, fails: the store of three plans holds a plan with id 1001,
and `removePlan(1001)` returns `undefined`, not the boolean `true`. -/
theorem removePlan_present_returns_undefined :
    (∃ p ∈ threePlans.savedPlans, p.id = 1001) ∧
    (removePlan threePlans sampleEnv 1001).completion =
      Completion.returned JSVal.undefined ∧
    (removePlan threePlans sampleEnv 1001).completion ≠
      Completion.returned (JSVal.bool true) := by
  decide

/-- C7, amended: `removePlan(id)` has no return value.  It returns `undefined`
whether or not a plan with that id was stored (and throws instead of returning
when the storage rejects the write); that something was removed shows in
`savedPlans` alone, which gets shorter if and only if a plan with that id was
in it before the call. -/
theorem removePlan_returns_undefined (s : AppState) (env : Env) (id : Int) :
    (removePlan s env id).completion =
      (if env.quotaOk then Completion.returned JSVal.undefined
       else Completion.threw JSError.quotaExceeded) ∧
    ((∃ p ∈ s.savedPlans, p.id = id) ↔
      (removePlan s env id).state.savedPlans.length < s.savedPlans.length) := by
  refine ⟨removePlan_completion s env id, ?_⟩
  rw [removePlan_savedPlans, List.length_filter_lt_length_iff_exists]
  constructor
  · rintro ⟨p, hp, hid⟩
    exact ⟨p, hp, by simp [hid]⟩
  · rintro ⟨p, hp, hid⟩
    exact ⟨p, hp, by simpa using hid⟩

/-! ## C8: `removePlan` of an absent id -/

/-- C8, as stated, fails: after an `addPlan` whose write the storage rejected,
the store holds one plan, of id 1000; `removePlan(7)`, for the id 7 that no
stored plan has, writes the slot again, `localStorage.setItem` raises again and
the exception escapes `removePlan`. -/
theorem removePlan_absent_raises :
    (∀ p ∈ (addPlan AppState.initial fullEnv "holiday" sampleHoliday).state.savedPlans,
      p.id ≠ 7) ∧
    (removePlan (addPlan AppState.initial fullEnv "holiday" sampleHoliday).state
      fullEnv 7).completion = Completion.threw JSError.quotaExceeded ∧
    ¬ ∃ v, (removePlan (addPlan AppState.initial fullEnv "holiday" sampleHoliday).state
      fullEnv 7).completion = Completion.returned v := by
  refine ⟨by decide, by decide, ?_⟩
  rintro ⟨v, hv⟩
  have h : (removePlan (addPlan AppState.initial fullEnv "holiday" sampleHoliday).state
      fullEnv 7).completion = Completion.threw JSError.quotaExceeded := by decide
  rw [h] at hv
  cases hv

/-- C8, amended: when no stored plan has the id, `removePlan(id)` leaves
`savedPlans` as it was, element for element and in the same order, in every
case; the call does what `saveToStorage` alone does on the unchanged state, so
it completes without raising exactly when the storage accepts the write, and
when the storage rejects the write the exception of `setItem` escapes and the
whole state is left as it was. -/
theorem removePlan_absent_noop (s : AppState) (env : Env) (id : Int)
    (habs : ∀ p ∈ s.savedPlans, p.id ≠ id) :
    (removePlan s env id).state.savedPlans = s.savedPlans ∧
    removePlan s env id = saveToStorage s env.quotaOk ∧
    ((removePlan s env id).completion = Completion.returned JSVal.undefined ↔
      env.quotaOk = true) ∧
    (env.quotaOk = false →
      (removePlan s env id).completion = Completion.threw JSError.quotaExceeded ∧
      (removePlan s env id).state = s) := by
  have hfilter : s.savedPlans.filter (fun plan => plan.id != id) = s.savedPlans := by
    rw [List.filter_eq_self]
    intro p hp
    simpa using habs p hp
  have hsame : removePlan s env id = saveToStorage s env.quotaOk := by
    unfold removePlan
    rw [hfilter]
  refine ⟨?_, hsame, ?_, ?_⟩
  · rw [removePlan_savedPlans, hfilter]
  · rw [removePlan_completion]
    cases env.quotaOk <;> simp
  · intro hq
    rw [hsame, hq]
    exact ⟨rfl, rfl⟩

/-- C8, amended, on the store of three plans (ids 1000, 1001, 1002) and the id
7: on a storage that accepts the write the call returns and the plans are as
they were; on a storage that rejects it the call throws and the state is as it
was. -/
theorem removePlan_absent_noop_witness :
    (removePlan threePlans sampleEnv 7).state.savedPlans = threePlans.savedPlans ∧
    (removePlan threePlans sampleEnv 7).completion = Completion.returned JSVal.undefined ∧
    (removePlan threePlans fullEnv 7).completion = Completion.threw JSError.quotaExceeded ∧
    (removePlan threePlans fullEnv 7).state = threePlans :=
  ⟨(removePlan_absent_noop threePlans sampleEnv 7 (by decide)).1,
   (removePlan_absent_noop threePlans sampleEnv 7 (by decide)).2.2.1.2 rfl,
   ((removePlan_absent_noop threePlans fullEnv 7 (by decide)).2.2.2 rfl).1,
   ((removePlan_absent_noop threePlans fullEnv 7 (by decide)).2.2.2 rfl).2⟩

/-! ## C9 and C10: `clearAllPlans` -/

theorem stringifyPlans_nil : stringifyPlans [] = "[]" := by
  decide

theorem getItem_setItem (st : Storage) (k v : String) :
    Storage.getItem (Storage.setItem st k v) k = some v := by
  simp [Storage.getItem, Storage.setItem]

theorem setItem_setItem (st : Storage) (k v : String) :
    Storage.setItem (Storage.setItem st k v) k v = Storage.setItem st k v := by
  simp [Storage.setItem, List.filter_cons]

theorem clearAllPlans_localStorage (s : AppState) (env : Env) :
    (clearAllPlans s env).state.localStorage =
      if env.quotaOk then s.localStorage.setItem plansKey "[]" else s.localStorage := by
  unfold clearAllPlans
  simp only [saveToStorage_completion]
  cases env.quotaOk <;>
    simp [saveToStorage, updatePlansCounter, showToast, stringifyPlans_nil]

theorem clearAllPlans_completion (s : AppState) (env : Env) :
    (clearAllPlans s env).completion =
      if env.quotaOk then Completion.returned JSVal.undefined
      else Completion.threw JSError.quotaExceeded := by
  unfold clearAllPlans
  simp only [saveToStorage_completion]
  cases env.quotaOk <;> simp

/-- C9: after `clearAllPlans`, `savedPlans` is the empty sequence and the
"all" listing is empty; on a storage that accepts the write the call returns
normally and the slot `wanderlust_plans` holds `[]`, the serialization of the
empty collection. -/
theorem clearAllPlans_empties (s : AppState) (env : Env) :
    (clearAllPlans s env).state.savedPlans = [] ∧
    plansToShow (clearAllPlans s env).state "all" = [] ∧
    (env.quotaOk = true →
      (clearAllPlans s env).completion = Completion.returned JSVal.undefined ∧
      (clearAllPlans s env).state.localStorage.getItem "wanderlust_plans" = some "[]" ∧
      stringifyPlans (clearAllPlans s env).state.savedPlans = "[]") := by
  refine ⟨clearAllPlans_savedPlans s env, ?_, ?_⟩
  · simp [plansToShow, clearAllPlans_savedPlans]
  · intro hq
    rw [clearAllPlans_completion, clearAllPlans_localStorage, clearAllPlans_savedPlans, hq]
    exact ⟨rfl, getItem_setItem _ _ _, stringifyPlans_nil⟩

/-- C9 on the store of three plans. -/
theorem clearAllPlans_empties_witness :
    threePlans.savedPlans.length = 3 ∧
    (clearAllPlans threePlans sampleEnv).state.savedPlans = [] ∧
    plansToShow (clearAllPlans threePlans sampleEnv).state "all" = [] ∧
    (clearAllPlans threePlans sampleEnv).state.localStorage.getItem "wanderlust_plans" =
      some "[]" :=
  ⟨by decide, (clearAllPlans_empties threePlans sampleEnv).1,
   (clearAllPlans_empties threePlans sampleEnv).2.1,
   ((clearAllPlans_empties threePlans sampleEnv).2.2 rfl).2.1⟩

/-- C10: when the storage accepts the write of a first `clearAllPlans`, a
second call leaves `savedPlans` and the whole of `localStorage`, the slot
`wanderlust_plans` included, as the first call left them. -/
theorem clearAllPlans_idempotent (s : AppState) (e1 e2 : Env)
    (h1 : e1.quotaOk = true) :
    (clearAllPlans (clearAllPlans s e1).state e2).state.savedPlans =
      (clearAllPlans s e1).state.savedPlans ∧
    (clearAllPlans (clearAllPlans s e1).state e2).state.localStorage =
      (clearAllPlans s e1).state.localStorage ∧
    (clearAllPlans (clearAllPlans s e1).state e2).state.localStorage.getItem
        "wanderlust_plans" =
      (clearAllPlans s e1).state.localStorage.getItem "wanderlust_plans" := by
  have hst : (clearAllPlans (clearAllPlans s e1).state e2).state.localStorage =
      (clearAllPlans s e1).state.localStorage := by
    rw [clearAllPlans_localStorage (clearAllPlans s e1).state e2,
      clearAllPlans_localStorage s e1, h1]
    cases e2.quotaOk
    · rfl
    · exact setItem_setItem _ _ _
  refine ⟨?_, hst, ?_⟩
  · rw [clearAllPlans_savedPlans, clearAllPlans_savedPlans]
  · rw [hst]

/-- C10 on the store of three plans. -/
theorem clearAllPlans_idempotent_witness :
    (clearAllPlans (clearAllPlans threePlans sampleEnv).state laterEnv).state.savedPlans =
      (clearAllPlans threePlans sampleEnv).state.savedPlans ∧
    (clearAllPlans (clearAllPlans threePlans sampleEnv).state laterEnv).state.localStorage =
      (clearAllPlans threePlans sampleEnv).state.localStorage :=
  ⟨(clearAllPlans_idempotent threePlans sampleEnv laterEnv rfl).1,
   (clearAllPlans_idempotent threePlans sampleEnv laterEnv rfl).2.1⟩

/-! ## C11: the slot mirrors `savedPlans` after every mutation -/

theorem saveToStorage_slot (s : AppState) :
    (saveToStorage s true).state.localStorage.getItem plansKey =
      some (stringifyPlans s.savedPlans) := by
  simp [saveToStorage, updatePlansCounter, getItem_setItem]

theorem showToast_localStorage (s : AppState) (m t : String) :
    (showToast s m t).localStorage = s.localStorage ∧
      (showToast s m t).savedPlans = s.savedPlans := by
  simp [showToast]

theorem step_completion (s : AppState) (op : Op) :
    (step s op).completion =
      if op.isAdd && s.selectedCountry.isNone then Completion.threw JSError.typeError
      else if op.env.quotaOk then Completion.returned JSVal.undefined
      else Completion.threw JSError.quotaExceeded := by
  cases op with
  | add env type data =>
    cases hc : s.selectedCountry with
    | none => simp [step, Op.isAdd, addPlan, hc]
    | some c => simp [step, Op.isAdd, Op.env, addPlan_completion_some s env type data c hc]
  | remove env id => simp [step, Op.isAdd, Op.env, removePlan_completion]
  | clear env => simp [step, Op.isAdd, Op.env, clearAllPlans_completion]

theorem step_slot_of_quotaOk (s : AppState) (op : Op) (hq : op.env.quotaOk = true)
    (hc : op.isAdd = true → s.selectedCountry ≠ none) :
    (step s op).state.localStorage.getItem plansKey =
      some (stringifyPlans (step s op).state.savedPlans) := by
  cases op with
  | add env type data =>
    simp only [Op.env] at hq
    cases hsel : s.selectedCountry with
    | none => exact absurd hsel (hc rfl)
    | some c =>
      simp only [step, addPlan, hsel, hq, saveToStorage_completion, if_true]
      rw [(showToast_localStorage _ _ _).1, (showToast_localStorage _ _ _).2,
        saveToStorage_slot, saveToStorage_savedPlans]
  | remove env id =>
    simp only [Op.env] at hq
    simp only [step, removePlan, hq]
    rw [saveToStorage_slot, saveToStorage_savedPlans]
  | clear env =>
    simp only [Op.env] at hq
    simp only [step, clearAllPlans, hq, saveToStorage_completion, if_true]
    rw [(showToast_localStorage _ _ _).1, (showToast_localStorage _ _ _).2,
      saveToStorage_slot, saveToStorage_savedPlans]

/-- C11: whenever `addPlan`, `removePlan` or `clearAllPlans` returns normally,
the slot `wanderlust_plans` holds `JSON.stringify` of `savedPlans` as it is at
return.  The call returns normally exactly when the storage accepts the write
and, for `addPlan`, `selectedCountry` is not `null`. -/
theorem mutation_flushes_to_storage (s : AppState) (op : Op) :
    (∀ v, (step s op).completion = Completion.returned v →
      (step s op).state.localStorage.getItem "wanderlust_plans" =
        some (stringifyPlans (step s op).state.savedPlans)) ∧
    ((∃ v, (step s op).completion = Completion.returned v) ↔
      (op.env.quotaOk = true ∧ (op.isAdd = true → s.selectedCountry ≠ none))) := by
  have hcomp := step_completion s op
  have key : (∃ v, (step s op).completion = Completion.returned v) ↔
      (op.env.quotaOk = true ∧ (op.isAdd = true → s.selectedCountry ≠ none)) := by
    rw [hcomp]
    cases hq : op.env.quotaOk <;> cases ha : op.isAdd <;>
      cases hsel : s.selectedCountry <;> simp
  refine ⟨?_, key⟩
  intro v hv
  obtain ⟨hq, hc⟩ := key.1 ⟨v, hv⟩
  exact step_slot_of_quotaOk s op hq hc

/-- C11 on the removal of the plan with id 1001 from the store of three
plans. -/
theorem mutation_flushes_to_storage_witness :
    (step threePlans (Op.remove sampleEnv 1001)).state.localStorage.getItem
        "wanderlust_plans" =
      some (stringifyPlans (step threePlans (Op.remove sampleEnv 1001)).state.savedPlans) :=
  (mutation_flushes_to_storage threePlans (Op.remove sampleEnv 1001)).1
    JSVal.undefined (by decide)

/-! ## C15 and C16: listings and counts -/

/-- C15: for a filter other than "all" (so for holiday, event and
longweekend), the plans `renderPlans` shows are exactly the plans of the "all"
listing whose type is the filter, in the same relative order; the "all"
listing is `savedPlans` itself. -/
theorem plansToShow_filters_by_type (s : AppState) (t : String)
    (ht : t = "holiday" ∨ t = "event" ∨ t = "longweekend") :
    plansToShow s t = (plansToShow s "all").filter (fun p => decide (p.type = t)) ∧
    (plansToShow s t).Sublist (plansToShow s "all") ∧
    (∀ p, p ∈ plansToShow s t ↔ p ∈ plansToShow s "all" ∧ p.type = t) ∧
    plansToShow s "all" = s.savedPlans := by
  have hall : plansToShow s "all" = s.savedPlans := by simp [plansToShow]
  have hne : t ≠ "all" := by
    rcases ht with h | h | h <;> rw [h] <;> decide
  have hfil : plansToShow s t = s.savedPlans.filter (fun p => decide (p.type = t)) := by
    simp only [plansToShow, bne_iff_ne, ne_eq, hne, not_false_eq_true, if_true]
    apply List.filter_congr
    intro p _
    by_cases h : p.type = t <;> simp [h]
  rw [hall, hfil]
  refine ⟨rfl, List.filter_sublist _, ?_, rfl⟩
  intro p
  simp [List.mem_filter]

/-- C15 on the holiday filter. -/
theorem plansToShow_filters_by_type_witness :
    plansToShow threePlans "holiday" =
      (plansToShow threePlans "all").filter (fun p => decide (p.type = "holiday")) :=
  (plansToShow_filters_by_type threePlans "holiday" (Or.inl rfl)).1

theorem countOfType_eq_length (s : AppState) (t : String) (hne : t ≠ "all") :
    countOfType s.savedPlans t = (plansToShow s t).length := by
  simp [countOfType, plansToShow, hne]

/-- C16: in every store state the total `updatePlansCounter` computes and
displays (in the badge and in the "all" filter count) is the length of the
"all" listing, and the count it computes and displays for each of holiday,
event and longweekend is the length of the listing `renderPlans` selects for
that filter. -/
theorem counter_matches_listings (s : AppState) :
    (updatePlansCounter s).dom.plansCount = toString (plansToShow s "all").length ∧
    (updatePlansCounter s).dom.filterAllCount = toString (plansToShow s "all").length ∧
    (updatePlansCounter s).dom.filterHolidayCount =
      toString (plansToShow s "holiday").length ∧
    (updatePlansCounter s).dom.filterEventCount =
      toString (plansToShow s "event").length ∧
    (updatePlansCounter s).dom.filterLwCount =
      toString (plansToShow s "longweekend").length ∧
    countOfType s.savedPlans "holiday" = (plansToShow s "holiday").length ∧
    countOfType s.savedPlans "event" = (plansToShow s "event").length ∧
    countOfType s.savedPlans "longweekend" = (plansToShow s "longweekend").length ∧
    (∀ t, plansToShow (updatePlansCounter s) t = plansToShow s t) := by
  have h1 := countOfType_eq_length s "holiday" (by decide)
  have h2 := countOfType_eq_length s "event" (by decide)
  have h3 := countOfType_eq_length s "longweekend" (by decide)
  have hall : plansToShow s "all" = s.savedPlans := by simp [plansToShow]
  refine ⟨?_, ?_, ?_, ?_, ?_, h1, h2, h3, ?_⟩
  · rw [hall]; rfl
  · rw [hall]; rfl
  · rw [← h1]; rfl
  · rw [← h2]; rfl
  · rw [← h3]; rfl
  · intro t; rfl

/-! ## C17: the membership test -/

/-- C17: each `isSaved` test is true if and only if some plan of `savedPlans`
has the type and the natural-key field asked for (`data.date` for a holiday,
`data.title` for an event and for a long weekend).  The test is an expression
without assignment: it yields a boolean and no new state. -/
theorem isSaved_iff_stored (s : AppState) (k : JSVal) :
    (isSavedHoliday s k = true ↔
      ∃ p ∈ s.savedPlans, p.type = "holiday" ∧ getProp p.data "date" = k) ∧
    (isSavedEvent s k = true ↔
      ∃ p ∈ s.savedPlans, p.type = "event" ∧ getProp p.data "title" = k) ∧
    (isSavedLongWeekend s k = true ↔
      ∃ p ∈ s.savedPlans, p.type = "longweekend" ∧ getProp p.data "title" = k) := by
  simp [isSavedHoliday, isSavedEvent, isSavedLongWeekend, JSVal.strictEq, List.any_eq_true]

/-! ## C18: a rejected write -/

/-- C18, as stated, fails: when the storage rejects the write, `clearAllPlans`
does not return a result to its caller; the exception of `setItem` escapes the
call. -/
theorem clearAllPlans_write_failure_throws :
    fullEnv.quotaOk = false ∧
    (clearAllPlans threePlans fullEnv).completion =
      Completion.threw JSError.quotaExceeded ∧
    ¬ ∃ v, (clearAllPlans threePlans fullEnv).completion = Completion.returned v := by
  have h : (clearAllPlans threePlans fullEnv).completion =
      Completion.threw JSError.quotaExceeded := by decide
  refine ⟨rfl, h, ?_⟩
  rintro ⟨v, hv⟩
  rw [h] at hv
  cases hv

/-- C18, amended: when the storage rejects the write, `addPlan` (with a
non-null `selectedCountry`), `removePlan` and `clearAllPlans` throw the
exception of `setItem` to their caller, leaving the storage and the page as
they were, and `savedPlans` reflects the mutation all the same: the new plan
is its last element, the plans with the id are gone, the sequence is empty. -/
theorem write_failure_escapes (s : AppState) (env : Env) (hq : env.quotaOk = false) :
    (∀ c type data, s.selectedCountry = some c →
      (addPlan s env type data).completion = Completion.threw JSError.quotaExceeded ∧
      (addPlan s env type data).state.savedPlans =
        s.savedPlans ++ [{ id := env.now, type := type, data := data,
                           savedAt := env.isoNow, country := c.code,
                           city := s.selectedCity }] ∧
      (addPlan s env type data).state.localStorage = s.localStorage ∧
      (addPlan s env type data).state.dom = s.dom) ∧
    (∀ id,
      (removePlan s env id).completion = Completion.threw JSError.quotaExceeded ∧
      (removePlan s env id).state.savedPlans =
        s.savedPlans.filter (fun plan => plan.id != id) ∧
      (removePlan s env id).state.localStorage = s.localStorage ∧
      (removePlan s env id).state.dom = s.dom) ∧
    ((clearAllPlans s env).completion = Completion.threw JSError.quotaExceeded ∧
      (clearAllPlans s env).state.savedPlans = [] ∧
      (clearAllPlans s env).state.localStorage = s.localStorage ∧
      (clearAllPlans s env).state.dom = s.dom) := by
  refine ⟨?_, ?_, ?_⟩
  · intro c type data hc
    simp [addPlan, hc, hq, saveToStorage]
  · intro id
    simp [removePlan, hq, saveToStorage]
  · simp [clearAllPlans, hq, saveToStorage]

/-- C18, amended, on the store of three plans and a storage that rejects
writes. -/
theorem write_failure_escapes_witness :
    (clearAllPlans threePlans fullEnv).completion =
      Completion.threw JSError.quotaExceeded ∧
    (clearAllPlans threePlans fullEnv).state.savedPlans = [] ∧
    (clearAllPlans threePlans fullEnv).state.localStorage = threePlans.localStorage ∧
    (clearAllPlans threePlans fullEnv).state.dom = threePlans.dom :=
  (write_failure_escapes threePlans fullEnv rfl).2.2

/-! ## C20: adding a plan and removing it by its id -/

/-- C20, as stated, fails: the store holds one plan with id 1000; a plan added
at clock value 1000 gets the same id, and `removePlan(1000)` then removes
both: the count drops by 2 and `savedPlans` is not what it was before the
addition. -/
theorem add_then_remove_removes_two :
    (addPlan AppState.initial sampleEnv "holiday" sampleHoliday).state.savedPlans.length = 1 ∧
    (addPlan (addPlan AppState.initial sampleEnv "holiday" sampleHoliday).state
        sampleEnv "event" sampleEvent).state.savedPlans.length = 2 ∧
    (removePlan
        (addPlan (addPlan AppState.initial sampleEnv "holiday" sampleHoliday).state
          sampleEnv "event" sampleEvent).state
        laterEnv 1000).state.savedPlans = [] ∧
    (removePlan
        (addPlan (addPlan AppState.initial sampleEnv "holiday" sampleHoliday).state
          sampleEnv "event" sampleEvent).state
        laterEnv 1000).state.savedPlans ≠
      (addPlan AppState.initial sampleEnv "holiday" sampleHoliday).state.savedPlans := by
  decide

/-- C20, amended: with a non-null `selectedCountry`, when the clock value read
by `addPlan` is not the id of a plan already stored, `removePlan` with the id
of the added plan removes exactly that plan: the length of `savedPlans` drops
by exactly 1 from what it was after the addition, and `savedPlans` is again
what it was before the addition. -/
theorem add_then_remove_restores (s : AppState) (c : Country) (e1 e2 : Env)
    (type : String) (data : PlanData) (hc : s.selectedCountry = some c)
    (hfresh : ∀ p ∈ s.savedPlans, p.id ≠ e1.now) :
    (removePlan (addPlan s e1 type data).state e2 e1.now).state.savedPlans =
      s.savedPlans ∧
    (removePlan (addPlan s e1 type data).state e2 e1.now).state.savedPlans.length + 1 =
      (addPlan s e1 type data).state.savedPlans.length := by
  have hrem : (removePlan (addPlan s e1 type data).state e2 e1.now).state.savedPlans =
      s.savedPlans := by
    rw [removePlan_savedPlans, addPlan_savedPlans_some s e1 type data c hc,
      List.filter_append]
    have h1 : s.savedPlans.filter (fun plan => plan.id != e1.now) = s.savedPlans := by
      rw [List.filter_eq_self]
      intro p hp
      simpa using hfresh p hp
    rw [h1]
    simp
  refine ⟨hrem, ?_⟩
  rw [hrem, addPlan_savedPlans_some s e1 type data c hc]
  simp

/-- C20, amended, on the sample event added to the store of three plans at
clock value 2000 and removed again. -/
theorem add_then_remove_restores_witness :
    (removePlan
        (addPlan threePlans { now := 2000, isoNow := "1970-01-01T00:00:02.000Z",
                              quotaOk := true } "event" sampleEvent).state
        laterEnv 2000).state.savedPlans = threePlans.savedPlans :=
  (add_then_remove_restores threePlans
    { code := "EG", name := "Egypt", flag := "https://flagcdn.com/w80/eg.png",
      capital := some "Cairo" }
    { now := 2000, isoNow := "1970-01-01T00:00:02.000Z", quotaOk := true } laterEnv
    "event" sampleEvent (by decide) (by decide)).1

/-! ## The plans the toggles leave -/

theorem addPlan_savedPlans (s : AppState) (env : Env) (type : String) (data : PlanData) :
    (addPlan s env type data).state.savedPlans =
      match s.selectedCountry with
      | none => s.savedPlans
      | some c =>
        s.savedPlans ++ [{ id := env.now, type := type, data := data, savedAt := env.isoNow,
                           country := c.code, city := s.selectedCity }] := by
  cases hc : s.selectedCountry with
  | none => rw [addPlan_savedPlans_none s env type data hc]
  | some c => rw [addPlan_savedPlans_some s env type data c hc]

theorem saveHoliday_savedPlans (s : AppState) (env : Env) (holiday : PlanData) :
    (saveHoliday s env holiday).state.savedPlans =
      if isSavedHoliday s (getProp holiday "date") then
        s.savedPlans.filter (fun plan =>
          !(plan.type == "holiday" &&
            (getProp plan.data "date").strictEq (getProp holiday "date")))
      else
        match s.selectedCountry with
        | none => s.savedPlans
        | some c =>
          s.savedPlans ++
            [{ id := env.now, type := "holiday",
               data := [("name", getProp holiday "name"),
                        ("localName", getProp holiday "localName"),
                        ("date", getProp holiday "date"), ("country", JSVal.str c.name)],
               savedAt := env.isoNow, country := c.code, city := s.selectedCity }] := by
  unfold saveHoliday
  by_cases hs : isSavedHoliday s (getProp holiday "date") = true
  · simp only [hs, if_true, saveToStorage_completion]
    cases env.quotaOk <;> simp [saveToStorage_savedPlans, showToast, updatePlansCounter]
  · simp only [hs, if_false]
    cases hc : s.selectedCountry with
    | none => simp
    | some c =>
      simp only [addPlan_completion_some s env _ _ c hc]
      cases env.quotaOk <;>
        simp [updatePlansCounter, addPlan_savedPlans_some s env _ _ c hc]

theorem saveEvent_savedPlans (s : AppState) (env : Env) (card : EventCard) :
    (saveEvent s env card).state.savedPlans =
      if isSavedEvent s (JSVal.str card.title) then
        s.savedPlans.filter (fun plan =>
          !(plan.type == "event" &&
            (getProp plan.data "title").strictEq (JSVal.str card.title)))
      else
        match s.selectedCountry with
        | none => s.savedPlans
        | some c =>
          s.savedPlans ++
            [{ id := env.now, type := "event",
               data := [("title", JSVal.str card.title), ("date", JSVal.str card.dateText),
                        ("location", JSVal.str card.locationText),
                        ("category", JSVal.str card.categoryOrGeneral)],
               savedAt := env.isoNow, country := c.code, city := s.selectedCity }] := by
  unfold saveEvent
  by_cases hs : isSavedEvent s (JSVal.str card.title) = true
  · simp only [hs, if_true, saveToStorage_completion]
    cases env.quotaOk <;> simp [saveToStorage_savedPlans, showToast, updatePlansCounter]
  · simp only [hs, if_false]
    cases hc : s.selectedCountry with
    | none => simp [addPlan, hc]
    | some c =>
      simp only [addPlan_completion_some s env _ _ c hc]
      cases env.quotaOk <;>
        simp [updatePlansCounter, addPlan_savedPlans_some s env _ _ c hc]

theorem saveLongWeekend_savedPlans (s : AppState) (env : Env) (card : LwCard) :
    (saveLongWeekend s env card).state.savedPlans =
      if isSavedLongWeekend s (JSVal.str card.title) then
        s.savedPlans.filter (fun plan =>
          !(plan.type == "longweekend" &&
            (getProp plan.data "title").strictEq (JSVal.str card.title)))
      else
        match s.selectedCountry with
        | none => s.savedPlans
        | some c =>
          s.savedPlans ++
            [{ id := env.now, type := "longweekend",
               data := [("title", JSVal.str card.title), ("dates", JSVal.str card.dates),
                        ("duration", JSVal.str card.duration)],
               savedAt := env.isoNow, country := c.code, city := s.selectedCity }] := by
  unfold saveLongWeekend
  by_cases hs : isSavedLongWeekend s (JSVal.str card.title) = true
  · simp only [hs, if_true, saveToStorage_completion]
    cases env.quotaOk <;> simp [saveToStorage_savedPlans, showToast, updatePlansCounter]
  · simp only [hs, if_false]
    cases hc : s.selectedCountry with
    | none => simp [addPlan, hc]
    | some c =>
      simp only [addPlan_completion_some s env _ _ c hc]
      cases env.quotaOk <;>
        simp [updatePlansCounter, addPlan_savedPlans_some s env _ _ c hc]

theorem onlyMembershipChanged_filter (ps : List Plan) (f : Plan → Bool) :
    OnlyMembershipChanged ps (ps.filter f) :=
  ⟨ps.filter f, [], by simp, List.filter_sublist _, by simp⟩

theorem onlyMembershipChanged_append (ps : List Plan) (p : Plan) :
    OnlyMembershipChanged ps (ps ++ [p]) :=
  ⟨ps, [p], rfl, List.Sublist.refl _, by simp⟩

theorem onlyMembershipChanged_refl (ps : List Plan) :
    OnlyMembershipChanged ps ps :=
  ⟨ps, [], by simp, List.Sublist.refl _, by simp⟩

theorem onlyMembershipChanged_toggle (ps : List Plan) (b : Bool) (f : Plan → Bool)
    (sel : Option Country) (mk : Country → Plan) :
    OnlyMembershipChanged ps
      (if b then ps.filter f
       else match sel with
         | none => ps
         | some c => ps ++ [mk c]) := by
  cases b with
  | true => exact onlyMembershipChanged_filter ps f
  | false =>
    cases sel with
    | none => exact onlyMembershipChanged_refl ps
    | some c => exact onlyMembershipChanged_append ps (mk c)

/-! ## C19: plans are never changed in place -/

/-- C19: each of `addPlan`, `removePlan`, `clearAllPlans`, `saveHoliday`,
`saveEvent` and `saveLongWeekend` leaves in `savedPlans` a subsequence of the
plans it found, each with the id, type, data, `savedAt`, country and city it
had, followed by at most one new plan: only membership changes. -/
theorem plans_not_changed_in_place (s : AppState) (env : Env) :
    (∀ type data,
      OnlyMembershipChanged s.savedPlans (addPlan s env type data).state.savedPlans) ∧
    (∀ id, OnlyMembershipChanged s.savedPlans (removePlan s env id).state.savedPlans) ∧
    OnlyMembershipChanged s.savedPlans (clearAllPlans s env).state.savedPlans ∧
    (∀ holiday,
      OnlyMembershipChanged s.savedPlans (saveHoliday s env holiday).state.savedPlans) ∧
    (∀ card, OnlyMembershipChanged s.savedPlans (saveEvent s env card).state.savedPlans) ∧
    (∀ card,
      OnlyMembershipChanged s.savedPlans (saveLongWeekend s env card).state.savedPlans) := by
  refine ⟨?_, ?_, ?_, ?_, ?_, ?_⟩
  · intro type data
    rw [addPlan_savedPlans]
    cases s.selectedCountry with
    | none => exact onlyMembershipChanged_refl _
    | some c => exact onlyMembershipChanged_append _ _
  · intro id
    rw [removePlan_savedPlans]
    exact onlyMembershipChanged_filter _ _
  · rw [clearAllPlans_savedPlans]
    exact ⟨[], [], rfl, List.nil_sublist _, by simp⟩
  · intro holiday
    rw [saveHoliday_savedPlans]
    exact onlyMembershipChanged_toggle _ _ _ _ _
  · intro card
    rw [saveEvent_savedPlans]
    exact onlyMembershipChanged_toggle _ _ _ _ _
  · intro card
    rw [saveLongWeekend_savedPlans]
    exact onlyMembershipChanged_toggle _ _ _ _ _

/-! ## C13 and C14: loading a malformed or missing slot -/

theorem parseJSON_null : parseJSON "null".data = some Json.null := by
  rfl

/-- C14: when the slot `wanderlust_plans` is absent (`getItem` returns
`null`), the startup load makes `savedPlans` the empty sequence and nothing is
thrown. -/
theorem load_missing_slot (st : Storage)
    (h : st.getItem "wanderlust_plans" = none) :
    loadSavedPlans st = LoadResult.plans [] := by
  have h2 : Storage.getItem st plansKey = none := h
  unfold loadSavedPlans
  rw [h2]
  simp only [parseJSON_null]
  rfl

/-- C14 on a browser with nothing stored. -/
theorem load_missing_slot_witness :
    loadSavedPlans AppState.initial.localStorage = LoadResult.plans [] :=
  load_missing_slot AppState.initial.localStorage rfl

/-- C13, on the code: for every string in the slot `wanderlust_plans` that is
not valid JSON, the startup load does not make `savedPlans` the empty
sequence; the `SyntaxError` of `JSON.parse` escapes the initializer. -/
theorem load_malformed_slot_throws (st : Storage) (text : String)
    (hslot : st.getItem "wanderlust_plans" = some text)
    (hbad : parseJSON text.data = none) :
    loadSavedPlans st = LoadResult.threw JSError.syntaxError ∧
    loadSavedPlans st ≠ LoadResult.plans [] := by
  have h2 : Storage.getItem st plansKey = some text := hslot
  have h : loadSavedPlans st = LoadResult.threw JSError.syntaxError := by
    unfold loadSavedPlans
    rw [h2]
    simp only [hbad]
  rw [h]
  exact ⟨rfl, by intro hh; cases hh⟩

/-- C13, on the code, for the slot content `not json`. -/
theorem load_malformed_slot_throws_witness :
    loadSavedPlans [("wanderlust_plans", "not json")] =
      LoadResult.threw JSError.syntaxError ∧
    loadSavedPlans [("wanderlust_plans", "not json")] ≠ LoadResult.plans [] :=
  load_malformed_slot_throws [("wanderlust_plans", "not json")] "not json" rfl (by rfl)

/-! ## Reading back what `JSON.stringify` wrote: strings -/

theorem char_eq_of_toNat (c : Char) (n : Nat) (h : c.toNat = n) : c = Char.ofNat n := by
  rw [← h, Char.ofNat_toNat]

theorem hexVal_hexDigit (n : Nat) (h : n < 16) : hexVal (hexDigit n) = some n := by
  interval_cases n <;> rfl

theorem parseStringBody_escape (e x : Char) (tail s r : List Char)
    (hu : e ≠ 'u') (hx : unescape e = some x)
    (h : parseStringBody tail = some (s, r)) :
    parseStringBody (Char.ofNat 92 :: e :: tail) = some (x :: s, r) := by
  rw [parseStringBody.eq_def]
  have h1 : ¬ (Char.ofNat 92).toNat = 34 := by decide
  have h2 : (Char.ofNat 92).toNat = 92 := by decide
  simp only [h1, h2, hu, hx, h, if_false, if_true]
  rfl

theorem parseStringBody_plain (c : Char) (tail s r : List Char)
    (h1 : ¬ c.toNat = 34) (h2 : ¬ c.toNat = 92) (h3 : ¬ c.toNat < 32)
    (h : parseStringBody tail = some (s, r)) :
    parseStringBody (c :: tail) = some (c :: s, r) := by
  rw [parseStringBody.eq_def]
  simp only [h1, h2, h3, h, if_false]

theorem parseStringBody_hex (a b : Nat) (ha : a < 16) (hb : b < 16) (tail s r : List Char)
    (h : parseStringBody tail = some (s, r)) :
    parseStringBody (Char.ofNat 92 :: 'u' :: '0' :: '0' :: hexDigit a :: hexDigit b :: tail) =
      some (Char.ofNat (16 * a + b) :: s, r) := by
  rw [parseStringBody.eq_def]
  have h1 : ¬ (Char.ofNat 92).toNat = 34 := by decide
  have h2 : (Char.ofNat 92).toNat = 92 := by decide
  have h0 : hexVal '0' = some 0 := by rfl
  simp only [h1, h2, h0, hexVal_hexDigit a ha, hexVal_hexDigit b hb, h, if_false, if_true,
    Nat.mul_zero, Nat.zero_add]
  rfl

theorem parseStringBody_quoteChar (c : Char) (tail s r : List Char)
    (h : parseStringBody tail = some (s, r)) :
    parseStringBody (quoteChar c ++ tail) = some (c :: s, r) := by
  unfold quoteChar
  split_ifs with h1 h2 h3 h4 h5 h6 h7 h8
  · have hc := char_eq_of_toNat c 34 h1
    subst hc
    exact parseStringBody_escape _ _ tail s r (by decide) (by rfl) h
  · have hc := char_eq_of_toNat c 92 h2
    subst hc
    exact parseStringBody_escape _ _ tail s r (by decide) (by rfl) h
  · have hc := char_eq_of_toNat c 8 h3
    subst hc
    exact parseStringBody_escape _ _ tail s r (by decide) (by rfl) h
  · have hc := char_eq_of_toNat c 12 h4
    subst hc
    exact parseStringBody_escape _ _ tail s r (by decide) (by rfl) h
  · have hc := char_eq_of_toNat c 10 h5
    subst hc
    exact parseStringBody_escape _ _ tail s r (by decide) (by rfl) h
  · have hc := char_eq_of_toNat c 13 h6
    subst hc
    exact parseStringBody_escape _ _ tail s r (by decide) (by rfl) h
  · have hc := char_eq_of_toNat c 9 h7
    subst hc
    exact parseStringBody_escape _ _ tail s r (by decide) (by rfl) h
  · have hx := parseStringBody_hex (c.toNat / 16) (c.toNat % 16) (by omega) (by omega) tail s r h
    have he : 16 * (c.toNat / 16) + c.toNat % 16 = c.toNat := Nat.div_add_mod _ _
    rw [he, Char.ofNat_toNat] at hx
    exact hx
  · exact parseStringBody_plain c tail s r h1 h2 h8 h

theorem parseStringBody_quoted (cs rest : List Char) :
    parseStringBody (cs.flatMap quoteChar ++ Char.ofNat 34 :: rest) = some (cs, rest) := by
  induction cs with
  | nil =>
    rw [parseStringBody.eq_def]
    simp
  | cons c cs ih =>
    rw [List.flatMap_cons, List.append_assoc]
    exact parseStringBody_quoteChar c _ cs rest ih

/-! ## Reading back what `JSON.stringify` wrote: numbers -/

theorem digitChar_spec (k : Nat) (h : k < 10) :
    (Nat.digitChar k).isDigit = true ∧ (Nat.digitChar k).toNat = 48 + k := by
  interval_cases k <;> exact ⟨rfl, rfl⟩

theorem digitsToNat_append (pre : List Char) (d : Char) :
    digitsToNat (pre ++ [d]) = 10 * digitsToNat pre + (d.toNat - 48) := by
  simp [digitsToNat, List.foldl_append]

theorem toDigitsCore_spec (fuel : Nat) :
    ∀ n ds, n < fuel →
      ∃ pre, Nat.toDigitsCore 10 fuel n ds = pre ++ ds ∧
        (∀ c ∈ pre, c.isDigit = true) ∧ digitsToNat pre = n ∧
        leadingZero pre = false ∧
        (∃ c t, pre = c :: t ∧ (n ≠ 0 → c.toNat ≠ 48)) := by
  induction fuel with
  | zero => intro n ds h; omega
  | succ fuel ih =>
    intro n ds h
    have hd := digitChar_spec (n % 10) (Nat.mod_lt _ (by decide))
    by_cases h0 : n / 10 = 0
    · refine ⟨[Nat.digitChar (n % 10)], ?_, ?_, ?_, rfl, ⟨_, [], rfl, ?_⟩⟩
      · simp [Nat.toDigitsCore, h0]
      · intro c hc
        rw [List.mem_singleton] at hc
        rw [hc]; exact hd.1
      · simp only [digitsToNat, List.foldl_cons, List.foldl_nil, hd.2]
        omega
      · intro hn
        rw [hd.2]
        omega
    · obtain ⟨pre, hpre, hdig, hval, _, c, t, hct, hc48⟩ :=
        ih (n / 10) (Nat.digitChar (n % 10) :: ds) (by omega)
      refine ⟨pre ++ [Nat.digitChar (n % 10)], ?_, ?_, ?_, ?_,
        ⟨c, t ++ [Nat.digitChar (n % 10)], ?_, ?_⟩⟩
      · simp [Nat.toDigitsCore, h0, hpre]
      · intro x hx
        rw [List.mem_append, List.mem_singleton] at hx
        rcases hx with hx | hx
        · exact hdig x hx
        · rw [hx]; exact hd.1
      · rw [digitsToNat_append, hval, hd.2]
        omega
      · rw [hct]
        have := hc48 h0
        cases t <;> simp [leadingZero, this]
      · rw [hct]; rfl
      · intro _
        exact hc48 h0

theorem toDigits_spec (n : Nat) :
    (∀ c ∈ Nat.toDigits 10 n, c.isDigit = true) ∧ digitsToNat (Nat.toDigits 10 n) = n ∧
      leadingZero (Nat.toDigits 10 n) = false ∧ ∃ c t, Nat.toDigits 10 n = c :: t := by
  obtain ⟨pre, hpre, hdig, hval, hlz, c, t, hct, _⟩ := toDigitsCore_spec (n + 1) n [] (by omega)
  have : Nat.toDigits 10 n = pre := by
    rw [Nat.toDigits, hpre, List.append_nil]
  rw [this]
  exact ⟨hdig, hval, hlz, c, t, hct⟩

theorem delimited_not_digit (rest : List Char) (h : Delimited rest) :
    ∀ c ∈ rest.head?, c.isDigit = false ∧ c ≠ '.' ∧ c ≠ 'e' ∧ c ≠ 'E' := by
  intro c hc
  rcases h c hc with h1 | h1 | h1
  · subst h1; decide
  · subst h1; decide
  · have := char_eq_of_toNat c 125 h1
    subst this; decide

theorem takeDigits_append (pre rest : List Char) (hdig : ∀ c ∈ pre, c.isDigit = true)
    (hrest : ∀ c ∈ rest.head?, c.isDigit = false) :
    takeDigits (pre ++ rest) = (pre, rest) := by
  induction pre with
  | nil =>
    cases rest with
    | nil => rfl
    | cons c r =>
      have := hrest c rfl
      simp [takeDigits, this]
  | cons c pre ih =>
    have hc := hdig c (List.mem_cons_self _ _)
    have := ih (fun x hx => hdig x (List.mem_cons_of_mem _ hx))
    simp [takeDigits, hc, this]

theorem parseFraction_delimited (rest : List Char) (h : Delimited rest) :
    parseFraction rest = some ([], rest) := by
  cases rest with
  | nil => rfl
  | cons c r =>
    have := (delimited_not_digit _ h c rfl).2.1
    simp [parseFraction, this]

theorem parseExponent_delimited (rest : List Char) (h : Delimited rest) :
    parseExponent rest = some (0, rest) := by
  cases rest with
  | nil => rfl
  | cons c r =>
    have h1 := (delimited_not_digit _ h c rfl).2.2.1
    have h2 := (delimited_not_digit _ h c rfl).2.2.2
    simp [parseExponent, h1, h2]

theorem parseUnsigned_toDigits (negative : Bool) (n : Nat) (rest : List Char)
    (h : Delimited rest) :
    parseUnsigned negative (Nat.toDigits 10 n ++ rest) =
      some (Json.num (if negative then -(n : Int) else (n : Int)) 0, rest) := by
  obtain ⟨hdig, hval, hlz, c, t, hct⟩ := toDigits_spec n
  have htake := takeDigits_append (Nat.toDigits 10 n) rest hdig
    (fun c hc => (delimited_not_digit _ h c hc).1)
  unfold parseUnsigned
  rw [htake]
  simp only [hlz, parseFraction_delimited rest h, parseExponent_delimited rest h,
    List.append_nil, hval]
  simp [hct]

theorem parseNumber_intJSON (n : Int) (rest : List Char) (h : Delimited rest) :
    parseNumber (intJSON n ++ rest) = some (Json.num n 0, rest) := by
  unfold intJSON
  by_cases hn : n < 0
  · simp only [hn, if_true, List.cons_append, parseNumber]
    rw [parseUnsigned_toDigits true n.natAbs rest h]
    have : -(n.natAbs : Int) = n := by omega
    simp only [if_true, this]
  · obtain ⟨hdig, _, _, c, t, hct⟩ := toDigits_spec n.toNat
    have hc : c ≠ '-' := by
      have := hdig c (by rw [hct]; exact List.mem_cons_self _ _)
      intro hh
      subst hh
      exact absurd this (by decide)
    have key := parseUnsigned_toDigits false n.toNat rest h
    simp only [hn, if_false]
    rw [hct] at key ⊢
    simp only [List.cons_append, parseNumber, hc, if_false]
    rw [← List.cons_append, key]
    have : (n.toNat : Int) = n := by omega
    simp [this]
/-! ## Reading back what `JSON.stringify` wrote: values -/

theorem skipWs_cons (c : Char) (cs : List Char) (h : isWs c = false) :
    skipWs (c :: cs) = c :: cs := by
  simp [skipWs, h]

theorem parses_quoteJSON (s : String) : Parses (quoteJSON s) (Json.str s) := by
  intro fuel rest hf _
  cases fuel with
  | zero => simp [quoteJSON] at hf
  | succ fuel =>
    have hws : isWs (Char.ofNat 34) = false := by decide
    have h34 : (Char.ofNat 34).toNat = 34 := by decide
    simp only [quoteJSON, List.cons_append, List.append_assoc, List.singleton_append,
      parseValue, skipWs_cons _ _ hws, h34, if_true, parseStringBody_quoted]
    rfl

theorem parses_null : Parses "null".data Json.null := by
  intro fuel rest hf _
  cases fuel with
  | zero => simp at hf
  | succ fuel => rfl

theorem parses_true : Parses "true".data (Json.bool true) := by
  intro fuel rest hf _
  cases fuel with
  | zero => simp at hf
  | succ fuel => rfl

theorem parses_false : Parses "false".data (Json.bool false) := by
  intro fuel rest hf _
  cases fuel with
  | zero => simp at hf
  | succ fuel => rfl

theorem intJSON_head (n : Int) :
    ∃ c t, intJSON n = c :: t ∧ (c = '-' ∨ c.isDigit = true) := by
  unfold intJSON
  by_cases hn : n < 0
  · exact ⟨'-', Nat.toDigits 10 n.natAbs, by simp [hn], Or.inl rfl⟩
  · obtain ⟨hdig, _, _, c, t, hct⟩ := toDigits_spec n.toNat
    refine ⟨c, t, by simp [hn, hct], Or.inr ?_⟩
    exact hdig c (by rw [hct]; exact List.mem_cons_self _ _)

theorem parseValue_number (fuel : Nat) (c : Char) (t : List Char)
    (hc : c = '-' ∨ c.isDigit = true) :
    parseValue (fuel + 1) (c :: t) = parseNumber (c :: t) := by
  have hfacts : isWs c = false ∧ ¬ c.toNat = 34 ∧ c ≠ '[' ∧ ¬ c.toNat = 123 ∧ c ≠ 'n' ∧
      c ≠ 't' ∧ c ≠ 'f' := by
    rcases hc with hc | hc
    · subst hc; decide
    · have h1 : 48 ≤ c.toNat ∧ c.toNat ≤ 57 := by
        simpa [Char.isDigit, Char.toNat, UInt32.le_def, Nat.le_antisymm_iff] using hc
      have hne : ∀ d : Char, ¬ (48 ≤ d.toNat ∧ d.toNat ≤ 57) → c ≠ d := by
        intro d hd hcd
        rw [hcd] at h1
        exact hd h1
      refine ⟨?_, by omega, hne _ (by decide), by omega, hne _ (by decide),
        hne _ (by decide), hne _ (by decide)⟩
      simp only [isWs, Bool.or_eq_false_iff, decide_eq_false_iff_not]
      omega
  obtain ⟨h1, h2, h3, h4, h5, h6, h7⟩ := hfacts
  simp only [parseValue, skipWs_cons _ _ h1, h2, h3, h4, h5, h6, h7, if_false]

theorem parses_intJSON (n : Int) : Parses (intJSON n) (Json.num n 0) := by
  intro fuel rest hf hrest
  obtain ⟨c, t, hct, hc⟩ := intJSON_head n
  cases fuel with
  | zero => rw [hct] at hf; simp at hf
  | succ fuel =>
    have := parseNumber_intJSON n rest hrest
    rw [hct] at this ⊢
    rw [List.cons_append, parseValue_number fuel c _ hc, ← List.cons_append, this]

/-! ## Reading back what `JSON.stringify` wrote: objects and arrays -/

theorem delimited_comma (r : List Char) : Delimited (',' :: r) := by
  intro c hc
  simp only [List.head?_cons, Option.mem_def, Option.some.injEq] at hc
  exact Or.inl hc.symm

theorem delimited_brace (r : List Char) : Delimited (Char.ofNat 125 :: r) := by
  intro c hc
  simp only [List.head?_cons, Option.mem_def, Option.some.injEq] at hc
  subst hc
  exact Or.inr (Or.inr (by decide))

theorem delimited_bracket (r : List Char) : Delimited (']' :: r) := by
  intro c hc
  simp only [List.head?_cons, Option.mem_def, Option.some.injEq] at hc
  exact Or.inr (Or.inl hc.symm)

theorem delimited_nil : Delimited [] := by
  intro c hc
  simp at hc

theorem parseMembers_member (fuel : Nat) (k : String) (vt : List Char) (v : Json)
    (after : List Char) (hv : Parses vt v) (hf : vt.length ≤ fuel)
    (hafter : Delimited after) :
    parseMembers (fuel + 1) (quoteJSON k ++ ':' :: vt ++ after) =
      match skipWs after with
      | [] => none
      | c :: r4 =>
        if c = ',' then
          match parseMembers fuel r4 with
          | some (ms, r5) => some ((k, v) :: ms, r5)
          | none => none
        else if c.toNat = 125 then some ([(k, v)], r4)
        else none := by
  have hws : isWs (Char.ofNat 34) = false := by decide
  have h34 : (Char.ofNat 34).toNat = 34 := by decide
  have hcolon : isWs ':' = false := by decide
  have hval := hv fuel after hf hafter
  simp only [quoteJSON, List.cons_append, List.append_assoc, List.singleton_append,
    parseMembers, skipWs_cons _ _ hws, h34, if_true, parseStringBody_quoted,
    List.nil_append, skipWs_cons _ _ hcolon, hval]

theorem commaSep_cons_cons (x y : List Char) (rest : List (List Char)) :
    commaSep (x :: y :: rest) = x ++ ',' :: commaSep (y :: rest) := rfl

theorem parseMembers_commaSep (ms : List (String × List Char × Json)) :
    ms ≠ [] → (∀ m ∈ ms, Parses m.2.1 m.2.2) →
    ∀ fuel rest, (commaSep (ms.map memberText)).length + 1 ≤ fuel →
      parseMembers fuel (commaSep (ms.map memberText) ++ Char.ofNat 125 :: rest) =
        some (ms.map memberValue, rest) := by
  induction ms with
  | nil => intro h; exact absurd rfl h
  | cons m ms ih =>
    intro _ hall fuel rest hf
    have hm := hall m (List.mem_cons_self _ _)
    cases fuel with
    | zero => omega
    | succ fuel =>
      cases ms with
      | nil =>
        simp only [List.map_cons, List.map_nil, commaSep, memberText] at hf ⊢
        have hlen : m.2.1.length ≤ fuel := by
          simp only [List.length_append, List.length_cons] at hf
          omega
        rw [parseMembers_member fuel m.1 m.2.1 m.2.2 _ hm hlen (delimited_brace rest)]
        have hws : isWs (Char.ofNat 125) = false := by decide
        have h1 : Char.ofNat 125 ≠ ',' := by decide
        have h2 : (Char.ofNat 125).toNat = 125 := by decide
        simp only [skipWs_cons _ _ hws, h1, h2, if_false, if_true, memberValue]
      | cons m2 ms =>
        have ih2 := ih (by simp) (fun x hx => hall x (List.mem_cons_of_mem _ hx)) fuel rest
        simp only [List.map_cons, commaSep_cons_cons, memberText, List.append_assoc,
          List.cons_append] at hf ih2 ⊢
        simp only [List.length_append, List.length_cons] at hf
        have hlen : m.2.1.length ≤ fuel := by omega
        have key := parseMembers_member fuel m.1 m.2.1 m.2.2
          (',' :: (commaSep ((quoteJSON m2.1 ++ ':' :: m2.2.1) :: List.map memberText ms) ++
            Char.ofNat 125 :: rest)) hm hlen (delimited_comma _)
        simp only [List.append_assoc, List.cons_append] at key
        rw [key]
        have hws : isWs ',' = false := by decide
        simp only [skipWs_cons _ _ hws, if_true]
        rw [ih2 (by omega)]
        simp [memberValue]

theorem commaSep_head (x : List Char) (xs : List (List Char)) (c : Char) (t : List Char)
    (hx : x = c :: t) : ∃ t2, commaSep (x :: xs) = c :: t2 := by
  cases xs with
  | nil => exact ⟨t, by simp [commaSep, hx]⟩
  | cons y ys => exact ⟨t ++ ',' :: commaSep (y :: ys), by simp [commaSep, hx]⟩

theorem parses_objectJSON (ms : List (String × List Char × Json))
    (hall : ∀ m ∈ ms, Parses m.2.1 m.2.2) :
    Parses (objectJSON (ms.map memberText)) (Json.obj (buildObject (ms.map memberValue))) := by
  intro fuel rest hf _
  have hws : isWs (Char.ofNat 123) = false := by decide
  have h1 : ¬ (Char.ofNat 123).toNat = 34 := by decide
  have h2 : Char.ofNat 123 ≠ '[' := by decide
  have h3 : (Char.ofNat 123).toNat = 123 := by decide
  cases fuel with
  | zero => simp [objectJSON] at hf
  | succ fuel =>
    simp only [objectJSON, List.length_cons, List.length_append, List.length_nil] at hf
    cases ms with
    | nil =>
      have hws2 : isWs (Char.ofNat 125) = false := by decide
      have h4 : (Char.ofNat 125).toNat = 125 := by decide
      simp only [objectJSON, List.map_nil, commaSep, List.nil_append, List.cons_append,
        parseValue, skipWs_cons _ _ hws, h1, h2, h3, if_false, if_true,
        skipWs_cons _ _ hws2, h4]
      rfl
    | cons m ms =>
      obtain ⟨t2, ht2⟩ := commaSep_head (memberText m) (ms.map memberText) (Char.ofNat 34)
        (m.1.data.flatMap quoteChar ++ [Char.ofNat 34] ++ ':' :: m.2.1)
        (by simp [memberText, quoteJSON])
      have key := parseMembers_commaSep (m :: ms) (by simp) hall fuel rest (by
        simp only [List.map_cons] at hf ⊢
        omega)
      have hws3 : isWs (Char.ofNat 34) = false := by decide
      have h5 : ¬ (Char.ofNat 34).toNat = 125 := by decide
      simp only [List.map_cons] at key ht2 ⊢
      simp only [objectJSON, List.cons_append, List.append_assoc, List.singleton_append,
        parseValue, skipWs_cons _ _ hws, h1, h2, h3, if_false, if_true]
      rw [ht2] at key ⊢
      simp only [List.cons_append, List.nil_append, skipWs_cons _ _ hws3, h5, if_false]
      rw [List.cons_append] at key
      rw [key]
      rfl

theorem parseElems_commaSep (es : List (List Char × Json)) :
    es ≠ [] → (∀ e ∈ es, Parses e.1 e.2) →
    ∀ fuel rest, (commaSep (es.map (fun e => e.1))).length + 1 ≤ fuel →
      parseElems fuel (commaSep (es.map (fun e => e.1)) ++ ']' :: rest) =
        some (es.map (fun e => e.2), rest) := by
  induction es with
  | nil => intro h; exact absurd rfl h
  | cons e es ih =>
    intro _ hall fuel rest hf
    have he := hall e (List.mem_cons_self _ _)
    have hws : isWs ']' = false := by decide
    have hwc : isWs ',' = false := by decide
    have h1 : ']' ≠ ',' := by decide
    cases fuel with
    | zero => omega
    | succ fuel =>
      cases es with
      | nil =>
        simp only [List.map_cons, List.map_nil, commaSep] at hf ⊢
        have hval := he fuel (']' :: rest) (by omega) (delimited_bracket rest)
        simp only [parseElems, hval, skipWs_cons _ _ hws, h1, if_false, if_true]
      | cons e2 es =>
        have ih2 := ih (by simp) (fun x hx => hall x (List.mem_cons_of_mem _ hx)) fuel rest
        simp only [List.map_cons, commaSep_cons_cons, List.append_assoc,
          List.cons_append] at hf ih2 ⊢
        simp only [List.length_append, List.length_cons] at hf
        have hval := he fuel (',' :: (commaSep (e2.1 :: List.map (fun e => e.1) es) ++
          ']' :: rest)) (by omega) (delimited_comma _)
        simp only [parseElems, hval, skipWs_cons _ _ hwc, if_true]
        rw [ih2 (by omega)]

theorem parses_array (es : List (List Char × Json))
    (hall : ∀ e ∈ es, Parses e.1 e.2)
    (hobj : ∀ e ∈ es, ∃ t, e.1 = Char.ofNat 123 :: t) :
    Parses ('[' :: (commaSep (es.map (fun e => e.1)) ++ [']']))
      (Json.arr (es.map (fun e => e.2))) := by
  intro fuel rest hf _
  have hws : isWs '[' = false := by decide
  have h1 : ¬ ('[' : Char).toNat = 34 := by decide
  cases fuel with
  | zero => simp at hf
  | succ fuel =>
    simp only [List.length_cons, List.length_append, List.length_nil] at hf
    cases es with
    | nil =>
      have hws2 : isWs ']' = false := by decide
      simp only [List.map_nil, commaSep, List.nil_append, List.cons_append,
        parseValue, skipWs_cons _ _ hws, h1, if_false, if_true, skipWs_cons _ _ hws2]
    | cons e es =>
      obtain ⟨t, ht⟩ := hobj e (List.mem_cons_self _ _)
      obtain ⟨t2, ht2⟩ := commaSep_head e.1 (es.map (fun e => e.1)) (Char.ofNat 123) t ht
      have key := parseElems_commaSep (e :: es) (by simp) hall fuel rest (by
        simp only [List.map_cons] at hf ⊢
        omega)
      have hws3 : isWs (Char.ofNat 123) = false := by decide
      have h5 : Char.ofNat 123 ≠ ']' := by decide
      simp only [List.map_cons] at key ht2 ⊢
      simp only [List.cons_append, List.append_assoc, List.singleton_append,
        parseValue, skipWs_cons _ _ hws, h1, if_false, if_true]
      rw [ht2] at key ⊢
      simp only [List.cons_append, List.nil_append, skipWs_cons _ _ hws3, h5, if_false]
      rw [List.cons_append] at key
      rw [key]

/-! ## Reading back what `JSON.stringify` wrote: plans -/

theorem parses_valJSON (v : JSVal) (t : List Char) (h : valJSON v = some t) :
    Parses t (primJson v) := by
  cases v with
  | undefined => simp [valJSON] at h
  | null =>
    simp only [valJSON, Option.some.injEq] at h
    subst h; exact parses_null
  | bool b =>
    cases b with
    | true =>
      simp only [valJSON, Option.some.injEq] at h
      subst h; exact parses_true
    | false =>
      simp only [valJSON, Option.some.injEq] at h
      subst h; exact parses_false
  | num n =>
    simp only [valJSON, Option.some.injEq] at h
    subst h; exact parses_intJSON n
  | str s =>
    simp only [valJSON, Option.some.injEq] at h
    subst h; exact parses_quoteJSON s

theorem valJSON_eq_none (v : JSVal) : valJSON v = none ↔ v = JSVal.undefined := by
  cases v with
  | bool b => cases b <;> simp [valJSON]
  | _ => simp [valJSON]

theorem dataMembers_text (d : PlanData) :
    (dataMembers d).map memberText = d.filterMap memberJSON := by
  induction d with
  | nil => rfl
  | cons kv d ih =>
    cases h : valJSON kv.2 with
    | none =>
      simp only [dataMembers, memberJSON, List.filterMap_cons, h, Option.map_none'] at ih ⊢
      exact ih
    | some t =>
      simp only [dataMembers, memberJSON, List.filterMap_cons, h, Option.map_some',
        List.map_cons] at ih ⊢
      rw [ih]
      rfl

theorem dataMembers_value (d : PlanData) :
    (dataMembers d).map memberValue =
      (definedFields d).map (fun kv => (kv.1, primJson kv.2)) := by
  induction d with
  | nil => rfl
  | cons kv d ih =>
    cases h : valJSON kv.2 with
    | none =>
      have hu := (valJSON_eq_none kv.2).1 h
      simp only [dataMembers, definedFields, List.filterMap_cons, h, Option.map_none',
        List.filter_cons, hu, bne_self_eq_false] at ih ⊢
      exact ih
    | some t =>
      have hu : kv.2 ≠ JSVal.undefined := by
        intro hh
        rw [(valJSON_eq_none kv.2).2 hh] at h
        cases h
      have hb : (kv.2 != JSVal.undefined) = true := by simpa using hu
      simp only [dataMembers, definedFields, List.filterMap_cons, h, Option.map_some',
        List.filter_cons, hb, if_true, List.map_cons] at ih ⊢
      rw [ih]
      rfl

theorem dataMembers_parses (d : PlanData) : ∀ m ∈ dataMembers d, Parses m.2.1 m.2.2 := by
  intro m hm
  simp only [dataMembers, List.mem_filterMap, Option.map_eq_some'] at hm
  obtain ⟨kv, _, t, ht, rfl⟩ := hm
  exact parses_valJSON kv.2 t ht

theorem setMember_append (ms : List (String × Json)) (k : String) (v : Json)
    (h : k ∉ ms.map (fun kv => kv.1)) : setMember ms k v = ms ++ [(k, v)] := by
  induction ms with
  | nil => rfl
  | cons m ms ih =>
    simp only [List.map_cons, List.mem_cons, not_or] at h
    have hne : ¬ m.1 = k := fun hh => h.1 hh.symm
    simp only [setMember, hne, if_false, List.cons_append, ih h.2]

theorem foldl_setMember (l acc : List (String × Json))
    (hl : ((acc ++ l).map (fun kv => kv.1)).Nodup) :
    l.foldl (fun ms kv => setMember ms kv.1 kv.2) acc = acc ++ l := by
  induction l generalizing acc with
  | nil => simp
  | cons kv l ih =>
    have hnot : kv.1 ∉ acc.map (fun kv => kv.1) := by
      intro hmem
      rw [List.map_append, List.map_cons] at hl
      have := (List.nodup_append.1 hl).2.2
      exact this hmem (List.mem_cons_self _ _)
    simp only [List.foldl_cons, setMember_append acc kv.1 kv.2 hnot]
    rw [ih (acc ++ [kv]) (by simpa using hl)]
    simp

theorem buildObject_of_nodup (l : List (String × Json))
    (hl : (l.map (fun kv => kv.1)).Nodup) : buildObject l = l := by
  unfold buildObject
  rw [foldl_setMember l [] (by simpa using hl)]
  rfl

theorem definedFields_names_nodup (d : PlanData) (h : (d.map (fun kv => kv.1)).Nodup) :
    ((definedFields d).map (fun kv => kv.1)).Nodup :=
  List.Nodup.sublist (List.Sublist.map _ (List.filter_sublist _)) h

theorem parses_dataJSON (d : PlanData) (h : (d.map (fun kv => kv.1)).Nodup) :
    Parses (dataJSON d) (dataValue d) := by
  have key := parses_objectJSON (dataMembers d) (dataMembers_parses d)
  rw [dataMembers_text, dataMembers_value, buildObject_of_nodup] at key
  · exact key
  · have := definedFields_names_nodup d h
    simpa [List.map_map] using this

theorem parses_city (c : Option String) :
    Parses (match c with
      | some c => quoteJSON c
      | none => "null".data) (cityValue c) := by
  cases c with
  | some c => exact parses_quoteJSON c
  | none => exact parses_null

theorem parses_planJSON (p : Plan) (h : (p.data.map (fun kv => kv.1)).Nodup) :
    Parses (planJSON p) (planValue p) := by
  have key := parses_objectJSON
    [("id", intJSON p.id, Json.num p.id 0), ("type", quoteJSON p.type, Json.str p.type),
     ("data", dataJSON p.data, dataValue p.data),
     ("savedAt", quoteJSON p.savedAt, Json.str p.savedAt),
     ("country", quoteJSON p.country, Json.str p.country),
     ("city", (match p.city with
        | some c => quoteJSON c
        | none => "null".data), cityValue p.city)]
    (by
      intro m hm
      simp only [List.mem_cons, List.mem_singleton, List.not_mem_nil, or_false] at hm
      rcases hm with rfl | rfl | rfl | rfl | rfl | rfl
      · exact parses_intJSON p.id
      · exact parses_quoteJSON p.type
      · exact parses_dataJSON p.data h
      · exact parses_quoteJSON p.savedAt
      · exact parses_quoteJSON p.country
      · exact parses_city p.city)
  rw [buildObject_of_nodup _ (by simp [memberValue])] at key
  exact key

theorem decimalToInt_zero (n : Int) : decimalToInt n 0 = some n := by
  simp [decimalToInt]

theorem toPrim_primJson (v : JSVal) (h : v ≠ JSVal.undefined) :
    (primJson v).toPrim = some v := by
  cases v with
  | undefined => exact absurd rfl h
  | null => rfl
  | bool b => rfl
  | num n => simp [primJson, Json.toPrim, decimalToInt_zero]
  | str s => rfl

theorem asData_defined (d : PlanData) (h : ∀ kv ∈ d, kv.2 ≠ JSVal.undefined) :
    asData (d.map (fun kv => (kv.1, primJson kv.2))) = some d := by
  induction d with
  | nil => rfl
  | cons kv d ih =>
    have h1 := toPrim_primJson kv.2 (h kv (List.mem_cons_self _ _))
    have h2 := ih (fun x hx => h x (List.mem_cons_of_mem _ hx))
    simp only [List.map_cons, asData, h1, h2]

theorem asData_definedFields (d : PlanData) :
    asData ((definedFields d).map (fun kv => (kv.1, primJson kv.2))) =
      some (definedFields d) := by
  apply asData_defined
  intro kv hkv
  have := (List.mem_filter.1 hkv).2
  simpa using this

theorem asPlan_planValue (p : Plan) : asPlan (planValue p) = some p.written := by
  have hcity : asCity (cityValue p.city) = some p.city := by
    cases p.city <;> rfl
  simp only [planValue, dataValue, asPlan, and_self, if_true, decimalToInt_zero,
    asData_definedFields, hcity, Plan.written]

theorem asPlanList_planValues (ps : List Plan) :
    asPlanList (ps.map planValue) = some (ps.map Plan.written) := by
  induction ps with
  | nil => rfl
  | cons p ps ih => simp only [List.map_cons, asPlanList, asPlan_planValue, ih]

theorem parseJSON_stringifyPlans (ps : List Plan) (h : DataNamesDistinct ps) :
    parseJSON (stringifyPlans ps).data = some (Json.arr (ps.map planValue)) := by
  have key := parses_array (ps.map (fun p => (planJSON p, planValue p)))
    (by
      intro e he
      obtain ⟨p, hp, rfl⟩ := List.mem_map.1 he
      exact parses_planJSON p (h p hp))
    (by
      intro e he
      obtain ⟨p, _, rfl⟩ := List.mem_map.1 he
      exact ⟨_, rfl⟩)
  have h1 : (ps.map (fun p => (planJSON p, planValue p))).map (fun e => e.1) =
      ps.map planJSON := by
    simp [List.map_map, Function.comp_def]
  have h2 : (ps.map (fun p => (planJSON p, planValue p))).map (fun e => e.2) =
      ps.map planValue := by
    simp [List.map_map, Function.comp_def]
  rw [h1, h2] at key
  have hrun := key (2 * (stringifyPlans ps).data.length + 2) [] (by
    simp only [stringifyPlans, List.length_cons, List.length_append, List.length_nil]
    omega) delimited_nil
  rw [List.append_nil] at hrun
  unfold parseJSON
  simp only [stringifyPlans] at hrun ⊢
  rw [hrun]
  rfl

theorem load_of_slot (st : Storage) (ps : List Plan) (h : DataNamesDistinct ps)
    (hslot : st.getItem plansKey = some (stringifyPlans ps)) :
    loadSavedPlans st = LoadResult.plans (ps.map Plan.written) := by
  unfold loadSavedPlans
  rw [hslot]
  simp only [parseJSON_stringifyPlans ps h, Json.falsy, asPlanList_planValues]
  rfl

/-! ## C12: reloading what the last mutation wrote -/

theorem definedFields_eq_self (d : PlanData) (h : ∀ kv ∈ d, kv.2 ≠ JSVal.undefined) :
    definedFields d = d := by
  unfold definedFields
  rw [List.filter_eq_self]
  intro kv hkv
  simpa using h kv hkv

theorem getProp_of_not_mem (d : PlanData) (k : String)
    (h : k ∉ d.map (fun kv => kv.1)) : getProp d k = JSVal.undefined := by
  induction d with
  | nil => rfl
  | cons kv d ih =>
    simp only [List.map_cons, List.mem_cons, not_or] at h
    have hne : (k == kv.1) = false := by simpa using h.1
    have := ih h.2
    unfold getProp at this ⊢
    rw [show kv :: d = (kv.1, kv.2) :: d from rfl, List.lookup_cons, hne]
    exact this

theorem getProp_definedFields (d : PlanData) (hn : (d.map (fun kv => kv.1)).Nodup)
    (k : String) : getProp (definedFields d) k = getProp d k := by
  induction d with
  | nil => rfl
  | cons kv d ih =>
    simp only [List.map_cons, List.nodup_cons] at hn
    have ih2 := ih hn.2
    by_cases hu : kv.2 = JSVal.undefined
    · have hdf : definedFields (kv :: d) = definedFields d := by
        simp [definedFields, hu]
      rw [hdf, ih2]
      by_cases hk : k = kv.1
      · subst hk
        rw [getProp_of_not_mem d _ hn.1]
        unfold getProp
        rw [show kv :: d = (kv.1, kv.2) :: d from rfl, List.lookup_cons]
        simp [hu]
      · have hne : (k == kv.1) = false := by simpa using hk
        unfold getProp
        rw [show kv :: d = (kv.1, kv.2) :: d from rfl, List.lookup_cons, hne]
    · have hdf : definedFields (kv :: d) = (kv.1, kv.2) :: definedFields d := by
        simp [definedFields, hu]
      rw [hdf]
      unfold getProp at ih2 ⊢
      rw [show kv :: d = (kv.1, kv.2) :: d from rfl, List.lookup_cons, List.lookup_cons]
      cases hk : (k == kv.1)
      · exact ih2
      · rfl

/-- C12: when a mutation returns normally, the startup load applied to the
storage it leaves yields the plans of `savedPlans`, each as `JSON.stringify`
wrote it: with the same id, type, `savedAt`, country and city, and with a
`data` object that gives the same value for every property read (a property
whose value is `undefined` is not written).  When no `data` property is
`undefined` the reloaded sequence is `savedPlans` itself.  In particular
`clearAllPlans` followed by a reload yields the empty sequence. -/
theorem reload_yields_savedPlans (s : AppState) (op : Op) (v : JSVal)
    (hret : (step s op).completion = Completion.returned v)
    (hnames : DataNamesDistinct (step s op).state.savedPlans) :
    loadSavedPlans (step s op).state.localStorage =
      LoadResult.plans ((step s op).state.savedPlans.map Plan.written) ∧
    (∀ p ∈ (step s op).state.savedPlans,
      p.written.id = p.id ∧ p.written.type = p.type ∧ p.written.savedAt = p.savedAt ∧
      p.written.country = p.country ∧ p.written.city = p.city ∧
      ∀ k, getProp p.written.data k = getProp p.data k) ∧
    ((∀ p ∈ (step s op).state.savedPlans, ∀ kv ∈ p.data, kv.2 ≠ JSVal.undefined) →
      loadSavedPlans (step s op).state.localStorage =
        LoadResult.plans (step s op).state.savedPlans) ∧
    (op.isAdd = false ∧ (step s op).state.savedPlans = [] →
      loadSavedPlans (step s op).state.localStorage = LoadResult.plans []) := by
  have hcomp := step_completion s op
  have hq : op.env.quotaOk = true ∧ (op.isAdd = true → s.selectedCountry ≠ none) := by
    rw [hcomp] at hret
    cases hq : op.env.quotaOk <;> cases ha : op.isAdd <;>
      cases hsel : s.selectedCountry <;> simp [hq, ha, hsel] at hret ⊢
  have hslot := step_slot_of_quotaOk s op hq.1 hq.2
  have hload := load_of_slot _ _ hnames hslot
  refine ⟨hload, ?_, ?_, ?_⟩
  · intro p hp
    exact ⟨rfl, rfl, rfl, rfl, rfl, getProp_definedFields p.data (hnames p hp)⟩
  · intro hdef
    rw [hload]
    congr 1
    rw [List.map_congr_left (g := id)]
    · simp
    · intro p hp
      simp only [Plan.written, id, definedFields_eq_self p.data (hdef p hp)]
  · intro hclear
    rw [hload, hclear.2]
    rfl

/-- C12 on the sample event added to the store of three plans: the reload
yields the four plans of `savedPlans`. -/
theorem reload_yields_savedPlans_witness :
    loadSavedPlans (step threePlans (Op.add sampleEnv "event" sampleEvent)).state.localStorage =
      LoadResult.plans (step threePlans (Op.add sampleEnv "event" sampleEvent)).state.savedPlans :=
  (reload_yields_savedPlans threePlans (Op.add sampleEnv "event" sampleEvent)
    JSVal.undefined (by decide) (by decide)).2.2.1 (by decide)

/-! ## C21: the counters after a mutation -/

theorem countersFresh_updatePlansCounter (s : AppState) :
    CountersFresh (updatePlansCounter s) :=
  ⟨rfl, rfl, rfl, rfl, rfl, rfl⟩

theorem countersFresh_showToast (s : AppState) (m t : String) (h : CountersFresh s) :
    CountersFresh (showToast s m t) := h

theorem countersFresh_saveToStorage (s : AppState) :
    CountersFresh (saveToStorage s true).state := by
  simp only [saveToStorage, if_true]
  exact countersFresh_updatePlansCounter _

theorem step_countersFresh (s : AppState) (op : Op) (v : JSVal)
    (h : (step s op).completion = Completion.returned v) :
    CountersFresh (step s op).state := by
  cases op with
  | add env type data =>
    simp only [step] at h ⊢
    cases hc : s.selectedCountry with
    | none => simp [addPlan, hc] at h
    | some c =>
      rw [addPlan_completion_some s env type data c hc] at h
      cases hq : env.quotaOk with
      | false => simp [hq] at h
      | true =>
        simp only [addPlan, hc, hq, saveToStorage_completion, if_true]
        exact countersFresh_showToast _ _ _ (countersFresh_saveToStorage _)
  | remove env id =>
    simp only [step] at h ⊢
    rw [removePlan_completion] at h
    cases hq : env.quotaOk with
    | false => simp [hq] at h
    | true =>
      simp only [removePlan, hq]
      exact countersFresh_saveToStorage _
  | clear env =>
    simp only [step] at h ⊢
    rw [clearAllPlans_completion] at h
    cases hq : env.quotaOk with
    | false => simp [hq] at h
    | true =>
      simp only [clearAllPlans, hq, saveToStorage_completion, if_true]
      exact countersFresh_showToast _ _ _ (countersFresh_saveToStorage _)

theorem saveHoliday_countersFresh (s : AppState) (env : Env) (holiday : PlanData)
    (v : JSVal) (h : (saveHoliday s env holiday).completion = Completion.returned v) :
    CountersFresh (saveHoliday s env holiday).state := by
  unfold saveHoliday at h ⊢
  by_cases hs : isSavedHoliday s (getProp holiday "date") = true
  · simp only [hs, if_true, saveToStorage_completion] at h ⊢
    cases hq : env.quotaOk with
    | false => simp [hq] at h
    | true =>
      simp only [hq, if_true]
      exact countersFresh_updatePlansCounter _
  · simp only [hs, if_false] at h ⊢
    cases hc : s.selectedCountry with
    | none => simp [hc] at h
    | some c =>
      simp only [hc, addPlan_completion_some s env _ _ c hc] at h ⊢
      cases hq : env.quotaOk with
      | false => simp [hq] at h
      | true =>
        simp only [hq, if_true]
        exact countersFresh_updatePlansCounter _

theorem saveEvent_countersFresh (s : AppState) (env : Env) (card : EventCard)
    (v : JSVal) (h : (saveEvent s env card).completion = Completion.returned v) :
    CountersFresh (saveEvent s env card).state := by
  unfold saveEvent at h ⊢
  by_cases hs : isSavedEvent s (JSVal.str card.title) = true
  · simp only [hs, if_true, saveToStorage_completion] at h ⊢
    cases hq : env.quotaOk with
    | false => simp [hq] at h
    | true =>
      simp only [hq, if_true]
      exact countersFresh_updatePlansCounter _
  · simp only [hs, if_false] at h ⊢
    cases hc : s.selectedCountry with
    | none => simp [addPlan, hc] at h
    | some c =>
      simp only [addPlan_completion_some s env _ _ c hc] at h ⊢
      cases hq : env.quotaOk with
      | false => simp [hq] at h
      | true =>
        simp only [hq, if_true]
        exact countersFresh_updatePlansCounter _

theorem saveLongWeekend_countersFresh (s : AppState) (env : Env) (card : LwCard)
    (v : JSVal) (h : (saveLongWeekend s env card).completion = Completion.returned v) :
    CountersFresh (saveLongWeekend s env card).state := by
  unfold saveLongWeekend at h ⊢
  by_cases hs : isSavedLongWeekend s (JSVal.str card.title) = true
  · simp only [hs, if_true, saveToStorage_completion] at h ⊢
    cases hq : env.quotaOk with
    | false => simp [hq] at h
    | true =>
      simp only [hq, if_true]
      exact countersFresh_updatePlansCounter _
  · simp only [hs, if_false] at h ⊢
    cases hc : s.selectedCountry with
    | none => simp [addPlan, hc] at h
    | some c =>
      simp only [addPlan_completion_some s env _ _ c hc] at h ⊢
      cases hq : env.quotaOk with
      | false => simp [hq] at h
      | true =>
        simp only [hq, if_true]
        exact countersFresh_updatePlansCounter _

/-- C21: when `addPlan`, `removePlan`, `clearAllPlans`, `saveHoliday`,
`saveEvent` or `saveLongWeekend` (in its removing as in its adding branch)
returns normally, the counters of the page have been refreshed: the badge and
the "all" filter show the length of `savedPlans` as it is at return, and the
holiday, event and longweekend filters show the number of plans of their type
at return. -/
theorem counters_refreshed_after_mutation (s : AppState) :
    (∀ op v, (step s op).completion = Completion.returned v →
      CountersFresh (step s op).state) ∧
    (∀ op v, (uiStep s op).completion = Completion.returned v →
      CountersFresh (uiStep s op).state) := by
  refine ⟨step_countersFresh s, ?_⟩
  intro op v h
  cases op with
  | holiday env holiday => exact saveHoliday_countersFresh s env holiday v h
  | event env card => exact saveEvent_countersFresh s env card v h
  | longWeekend env card => exact saveLongWeekend_countersFresh s env card v h
  | remove env id => exact step_countersFresh s (Op.remove env id) v h
  | clear env => exact step_countersFresh s (Op.clear env) v h

/-- C21 on the sample holiday unsaved from the store of three plans (the
removing branch of `saveHoliday`), on a page whose counters were stale. -/
theorem counters_refreshed_after_mutation_witness :
    ¬ CountersFresh { threePlans with dom := Dom.initial } ∧
    CountersFresh
      (uiStep { threePlans with dom := Dom.initial }
        (UiOp.holiday laterEnv sampleHoliday)).state ∧
    (uiStep { threePlans with dom := Dom.initial }
        (UiOp.holiday laterEnv sampleHoliday)).state.savedPlans.length = 2 :=
  ⟨by decide,
   (counters_refreshed_after_mutation { threePlans with dom := Dom.initial }).2
     (UiOp.holiday laterEnv sampleHoliday) JSVal.undefined (by decide),
   by decide⟩
/-! ## The key tested by each toggle -/

theorem sameKey_holiday (p : Plan) (d : PlanData) :
    sameKey p.type p.data "holiday" d =
      (p.type == "holiday" && (getProp p.data "date").strictEq (getProp d "date")) := by
  by_cases h : p.type = "holiday"
  · simp [sameKey, naturalKey, h]
  · have hb : (p.type == "holiday") = false := by simpa using h
    simp only [sameKey, hb, Bool.false_and]

theorem sameKey_event (p : Plan) (d : PlanData) :
    sameKey p.type p.data "event" d =
      (p.type == "event" && (getProp p.data "title").strictEq (getProp d "title")) := by
  by_cases h : p.type = "event"
  · simp [sameKey, naturalKey, h]
  · have hb : (p.type == "event") = false := by simpa using h
    simp only [sameKey, hb, Bool.false_and]

theorem sameKey_longweekend (p : Plan) (d : PlanData) :
    sameKey p.type p.data "longweekend" d =
      (p.type == "longweekend" &&
        (getProp p.data "title").strictEq (getProp d "title")) := by
  by_cases h : p.type = "longweekend"
  · simp [sameKey, naturalKey, h]
  · have hb : (p.type == "longweekend") = false := by simpa using h
    simp only [sameKey, hb, Bool.false_and]

theorem unique_toggle (ps : List Plan) (b : Bool) (m : Plan → Bool)
    (sel : Option Country) (mk : Country → Plan)
    (hu : NaturalKeysUnique ps)
    (hb : b = ps.any m)
    (hm : ∀ c, ∀ p ∈ ps, sameKey p.type p.data (mk c).type (mk c).data = m p) :
    NaturalKeysUnique
      (if b then ps.filter (fun p => !m p)
       else match sel with
         | none => ps
         | some c => ps ++ [mk c]) := by
  cases b with
  | true => exact List.Pairwise.filter _ hu
  | false =>
    cases sel with
    | none => exact hu
    | some c =>
      simp only [Bool.false_eq_true, if_false]
      unfold NaturalKeysUnique at hu ⊢
      rw [List.pairwise_append]
      refine ⟨hu, List.pairwise_singleton _ _, ?_⟩
      intro p hp q hq
      rw [List.mem_singleton] at hq
      subst hq
      rw [hm c p hp]
      have := hb.symm
      rw [List.any_eq_false] at this
      simpa using this p hp

/-! ## C22: the toggles keep natural keys unique -/

/-- C22: on a store in which no two plans share both type and natural key,
`saveHoliday`, `saveEvent` and `saveLongWeekend` leave, whichever branch they
take, a store in which again no two plans share both type and natural key. -/
theorem toggles_preserve_unique (s : AppState) (env : Env)
    (hu : NaturalKeysUnique s.savedPlans) :
    (∀ holiday, NaturalKeysUnique (saveHoliday s env holiday).state.savedPlans) ∧
    (∀ card, NaturalKeysUnique (saveEvent s env card).state.savedPlans) ∧
    (∀ card, NaturalKeysUnique (saveLongWeekend s env card).state.savedPlans) := by
  refine ⟨?_, ?_, ?_⟩
  · intro holiday
    rw [saveHoliday_savedPlans]
    exact unique_toggle s.savedPlans _
      (fun plan => plan.type == "holiday" &&
        (getProp plan.data "date").strictEq (getProp holiday "date")) _ _ hu rfl
      (fun c p _ => by rw [sameKey_holiday]; rfl)
  · intro card
    rw [saveEvent_savedPlans]
    exact unique_toggle s.savedPlans _
      (fun plan => plan.type == "event" &&
        (getProp plan.data "title").strictEq (JSVal.str card.title)) _ _ hu rfl
      (fun c p _ => by rw [sameKey_event]; rfl)
  · intro card
    rw [saveLongWeekend_savedPlans]
    exact unique_toggle s.savedPlans _
      (fun plan => plan.type == "longweekend" &&
        (getProp plan.data "title").strictEq (JSVal.str card.title)) _ _ hu rfl
      (fun c p _ => by rw [sameKey_longweekend]; rfl)

/-- C22 on the store of three plans and a second holiday. -/
theorem toggles_preserve_unique_witness :
    NaturalKeysUnique
      (saveHoliday threePlans laterEnv
        [("name", JSVal.str "Labour Day"), ("localName", JSVal.str "Labour Day"),
         ("date", JSVal.str "2025-05-01")]).state.savedPlans :=
  (toggles_preserve_unique threePlans laterEnv (by decide)).1 _
/-! ## C23: the toggles flip membership -/

theorem getProp_holidayData (a b k c : JSVal) :
    getProp [("name", a), ("localName", b), ("date", k), ("country", c)] "date" = k := rfl

theorem getProp_eventData (t a b c : JSVal) :
    getProp [("title", t), ("date", a), ("location", b), ("category", c)] "title" = t := rfl

theorem getProp_lwData (t a b : JSVal) :
    getProp [("title", t), ("dates", a), ("duration", b)] "title" = t := rfl

theorem any_filter_not (ps : List Plan) (m : Plan → Bool) :
    (ps.filter (fun p => !m p)).any m = false := by
  rw [List.any_eq_false]
  intro p hp
  have := (List.mem_filter.1 hp).2
  simpa using this

theorem filter_not_of_any_false (ps : List Plan) (m : Plan → Bool)
    (h : ps.any m = false) : ps.filter (fun p => !m p) = ps := by
  rw [List.filter_eq_self]
  intro p hp
  rw [List.any_eq_false] at h
  simpa using h p hp

theorem any_toggle (ps : List Plan) (m : Plan → Bool) (q : Plan) (hq : m q = true) :
    (if ps.any m then ps.filter (fun p => !m p) else ps ++ [q]).any m = !ps.any m := by
  cases h : ps.any m with
  | true => simp only [if_true, any_filter_not, Bool.not_true]
  | false => simp [hq]

theorem saveHoliday_twice_savedPlans (s : AppState) (c : Country) (env1 env2 : Env)
    (holiday : PlanData) (hc : s.selectedCountry = some c)
    (hns : isSavedHoliday s (getProp holiday "date") = false) :
    isSavedHoliday (saveHoliday s env1 holiday).state (getProp holiday "date") = true ∧
    (saveHoliday (saveHoliday s env1 holiday).state env2 holiday).state.savedPlans =
      s.savedPlans := by
  have h1 : (saveHoliday s env1 holiday).state.savedPlans =
      s.savedPlans ++
        [{ id := env1.now, type := "holiday",
           data := [("name", getProp holiday "name"),
                    ("localName", getProp holiday "localName"),
                    ("date", getProp holiday "date"), ("country", JSVal.str c.name)],
           savedAt := env1.isoNow, country := c.code, city := s.selectedCity }] := by
    rw [saveHoliday_savedPlans, hns, hc]
    rfl
  have hsaved : isSavedHoliday (saveHoliday s env1 holiday).state
      (getProp holiday "date") = true := by
    unfold isSavedHoliday
    rw [h1, List.any_append]
    simp [getProp_holidayData, JSVal.strictEq]
  refine ⟨hsaved, ?_⟩
  rw [saveHoliday_savedPlans, hsaved, if_pos rfl, h1, List.filter_append]
  have hold := filter_not_of_any_false s.savedPlans
    (fun plan => plan.type == "holiday" &&
      (getProp plan.data "date").strictEq (getProp holiday "date")) hns
  rw [hold]
  simp [getProp_holidayData, JSVal.strictEq]

/-- C23: with a non-null `selectedCountry`, each toggle flips the membership
test of its key: the test for the holiday's date after `saveHoliday` is the
negation of the test before, and likewise for the card title after `saveEvent`
and `saveLongWeekend`.  Two consecutive `saveHoliday` calls for a holiday that
is not saved return `savedPlans` to exactly its original sequence. -/
theorem toggles_flip_membership (s : AppState) (c : Country) (env : Env)
    (hc : s.selectedCountry = some c) :
    (∀ holiday,
      isSavedHoliday (saveHoliday s env holiday).state (getProp holiday "date") =
        !isSavedHoliday s (getProp holiday "date")) ∧
    (∀ card : EventCard,
      isSavedEvent (saveEvent s env card).state (JSVal.str card.title) =
        !isSavedEvent s (JSVal.str card.title)) ∧
    (∀ card : LwCard,
      isSavedLongWeekend (saveLongWeekend s env card).state (JSVal.str card.title) =
        !isSavedLongWeekend s (JSVal.str card.title)) ∧
    (∀ holiday env2, isSavedHoliday s (getProp holiday "date") = false →
      (saveHoliday (saveHoliday s env holiday).state env2 holiday).state.savedPlans =
        s.savedPlans) := by
  refine ⟨?_, ?_, ?_, ?_⟩
  · intro holiday
    unfold isSavedHoliday
    rw [saveHoliday_savedPlans, hc]
    dsimp only
    refine any_toggle s.savedPlans
      (fun plan => plan.type == "holiday" &&
        (getProp plan.data "date").strictEq (getProp holiday "date")) _ ?_
    simp [getProp_holidayData, JSVal.strictEq]
  · intro card
    unfold isSavedEvent
    rw [saveEvent_savedPlans, hc]
    dsimp only
    refine any_toggle s.savedPlans
      (fun plan => plan.type == "event" &&
        (getProp plan.data "title").strictEq (JSVal.str card.title)) _ ?_
    simp [getProp_eventData, JSVal.strictEq]
  · intro card
    unfold isSavedLongWeekend
    rw [saveLongWeekend_savedPlans, hc]
    dsimp only
    refine any_toggle s.savedPlans
      (fun plan => plan.type == "longweekend" &&
        (getProp plan.data "title").strictEq (JSVal.str card.title)) _ ?_
    simp [getProp_lwData, JSVal.strictEq]
  · intro holiday env2 hns
    exact (saveHoliday_twice_savedPlans s c env env2 holiday hc hns).2

/-- C23 on the sample holiday and the initial store: saved after one call,
and the store as it was after two. -/
theorem toggles_flip_membership_witness :
    isSavedHoliday (saveHoliday AppState.initial sampleEnv sampleHoliday).state
        (getProp sampleHoliday "date") =
      !isSavedHoliday AppState.initial (getProp sampleHoliday "date") ∧
    (saveHoliday (saveHoliday AppState.initial sampleEnv sampleHoliday).state laterEnv
        sampleHoliday).state.savedPlans = AppState.initial.savedPlans :=
  ⟨(toggles_flip_membership AppState.initial
      { code := "EG", name := "Egypt", flag := "https://flagcdn.com/w80/eg.png",
        capital := some "Cairo" } sampleEnv rfl).1 sampleHoliday,
   (toggles_flip_membership AppState.initial
      { code := "EG", name := "Egypt", flag := "https://flagcdn.com/w80/eg.png",
        capital := some "Cairo" } sampleEnv rfl).2.2.2 sampleHoliday laterEnv (by decide)⟩

/-! ## C24: unsaving touches only the targeted key -/

theorem filter_not_spec (ps : List Plan) (m : Plan → Bool) :
    (∀ p ∈ ps.filter (fun p => !m p), m p = false) ∧
    (ps.filter (fun p => !m p)).Sublist ps ∧
    (∀ p, m p = false → (ps.filter (fun p => !m p)).count p = ps.count p) := by
  refine ⟨?_, List.filter_sublist _, ?_⟩
  · intro p hp
    have := (List.mem_filter.1 hp).2
    simpa using this
  · intro p hp
    rw [List.count_filter]
    simp [hp]

/-- C24: for a holiday that is saved, `saveHoliday` leaves in `savedPlans`
exactly the plans that are not holiday plans of its date: no holiday plan of
that date remains, and every other plan (of another type, or a holiday of
another date) remains as often as before and in the original relative order.
The same holds for `saveEvent` and `saveLongWeekend` with the card title. -/
theorem unsave_touches_only_key (s : AppState) (env : Env) :
    (∀ holiday, isSavedHoliday s (getProp holiday "date") = true →
      (∀ p ∈ (saveHoliday s env holiday).state.savedPlans,
        ¬ (p.type = "holiday" ∧ getProp p.data "date" = getProp holiday "date")) ∧
      (saveHoliday s env holiday).state.savedPlans.Sublist s.savedPlans ∧
      (∀ p : Plan,
        ¬ (p.type = "holiday" ∧ getProp p.data "date" = getProp holiday "date") →
        (saveHoliday s env holiday).state.savedPlans.count p = s.savedPlans.count p)) ∧
    (∀ card : EventCard, isSavedEvent s (JSVal.str card.title) = true →
      (∀ p ∈ (saveEvent s env card).state.savedPlans,
        ¬ (p.type = "event" ∧ getProp p.data "title" = JSVal.str card.title)) ∧
      (saveEvent s env card).state.savedPlans.Sublist s.savedPlans ∧
      (∀ p : Plan,
        ¬ (p.type = "event" ∧ getProp p.data "title" = JSVal.str card.title) →
        (saveEvent s env card).state.savedPlans.count p = s.savedPlans.count p)) ∧
    (∀ card : LwCard, isSavedLongWeekend s (JSVal.str card.title) = true →
      (∀ p ∈ (saveLongWeekend s env card).state.savedPlans,
        ¬ (p.type = "longweekend" ∧ getProp p.data "title" = JSVal.str card.title)) ∧
      (saveLongWeekend s env card).state.savedPlans.Sublist s.savedPlans ∧
      (∀ p : Plan,
        ¬ (p.type = "longweekend" ∧ getProp p.data "title" = JSVal.str card.title) →
        (saveLongWeekend s env card).state.savedPlans.count p = s.savedPlans.count p)) := by
  refine ⟨?_, ?_, ?_⟩
  · intro holiday hs
    rw [saveHoliday_savedPlans, hs, if_pos rfl]
    obtain ⟨h1, h2, h3⟩ := filter_not_spec s.savedPlans
      (fun plan => plan.type == "holiday" &&
        (getProp plan.data "date").strictEq (getProp holiday "date"))
    refine ⟨?_, h2, ?_⟩
    · intro p hp
      simpa [JSVal.strictEq] using h1 p hp
    · intro p hp
      exact h3 p (by simpa [JSVal.strictEq] using hp)
  · intro card hs
    rw [saveEvent_savedPlans, hs, if_pos rfl]
    obtain ⟨h1, h2, h3⟩ := filter_not_spec s.savedPlans
      (fun plan => plan.type == "event" &&
        (getProp plan.data "title").strictEq (JSVal.str card.title))
    refine ⟨?_, h2, ?_⟩
    · intro p hp
      simpa [JSVal.strictEq] using h1 p hp
    · intro p hp
      exact h3 p (by simpa [JSVal.strictEq] using hp)
  · intro card hs
    rw [saveLongWeekend_savedPlans, hs, if_pos rfl]
    obtain ⟨h1, h2, h3⟩ := filter_not_spec s.savedPlans
      (fun plan => plan.type == "longweekend" &&
        (getProp plan.data "title").strictEq (JSVal.str card.title))
    refine ⟨?_, h2, ?_⟩
    · intro p hp
      simpa [JSVal.strictEq] using h1 p hp
    · intro p hp
      exact h3 p (by simpa [JSVal.strictEq] using hp)

/-- C24 on the sample holiday unsaved from the store of three plans: the event
and the long weekend remain, in their order. -/
theorem unsave_touches_only_key_witness :
    (saveHoliday threePlans laterEnv sampleHoliday).state.savedPlans.Sublist
      threePlans.savedPlans ∧
    (saveHoliday threePlans laterEnv sampleHoliday).state.savedPlans.map (fun p => p.type) =
      ["event", "longweekend"] :=
  ⟨((unsave_touches_only_key threePlans laterEnv).1 sampleHoliday (by decide)).2.1,
   by decide⟩

/-! ## C25: a click on the save button of a holiday card -/

theorem saveHoliday_completion_adding (s : AppState) (c : Country) (env : Env)
    (holiday : PlanData) (hc : s.selectedCountry = some c)
    (hns : isSavedHoliday s (getProp holiday "date") = false) (hq : env.quotaOk = true) :
    (saveHoliday s env holiday).completion = Completion.returned JSVal.undefined := by
  unfold saveHoliday
  simp only [hns, Bool.false_eq_true, if_false, hc, addPlan_completion_some s env _ _ c hc,
    hq, if_true]

theorem parseJSON_empty_text (text : String) (v : Json)
    (hparse : parseJSON text.data = some v) : text ≠ "" := by
  intro h
  rw [h] at hparse
  have hnone : parseJSON "".data = none := rfl
  rw [hnone] at hparse
  cases hparse

theorem holidayButtonListener_parsed (s : AppState) (env : Env) (text : String) (v : Json)
    (holiday : PlanData) (hparse : parseJSON text.data = some v)
    (harg : holidayArgument v = some (HolidayArgument.object holiday)) :
    holidayButtonListener s env (some text) =
      some { outcome := saveHoliday s env holiday, calls := 1 } := by
  simp only [holidayButtonListener, hparse, harg, Option.map_some', saveHolidayParsed]

theorem delegatedListener_parsed (s : AppState) (env : Env) (text : String) (v : Json)
    (holiday : PlanData) (hparse : parseJSON text.data = some v)
    (harg : holidayArgument v = some (HolidayArgument.object holiday)) :
    delegatedListener s env (some text) true =
      some { outcome := saveHoliday s env holiday, calls := 1 } := by
  simp only [delegatedListener, if_true, parseJSON_empty_text text v hparse, if_false, hparse,
    harg, Option.map_some', saveHolidayParsed]

theorem delegatedListener_not_found (s : AppState) (env : Env) (attr : Option String) :
    delegatedListener s env attr false =
      some { outcome := { state := s, completion := Completion.returned JSVal.undefined }
             calls := 0 } := by
  simp only [delegatedListener, Bool.false_eq_true, if_false]

theorem holidayButtonListener_malformed (s : AppState) (env : Env) (text : String)
    (hparse : parseJSON text.data = none) :
    holidayButtonListener s env (some text) =
      some { outcome := { state := s, completion := Completion.threw JSError.syntaxError }
             calls := 0 } := by
  simp only [holidayButtonListener, hparse]

theorem delegatedListener_malformed (s : AppState) (env : Env) (text : String)
    (hparse : parseJSON text.data = none) :
    ∃ run, delegatedListener s env (some text) true = some run ∧
      run.outcome.state = s ∧ run.calls = 0 := by
  by_cases h : text = ""
  · exact ⟨{ outcome := { state := s, completion := Completion.returned JSVal.undefined }
             calls := 0 },
      by simp only [delegatedListener, if_true, h], rfl, rfl⟩
  · exact ⟨{ outcome := { state := s, completion := Completion.threw JSError.syntaxError }
             calls := 0 },
      by simp only [delegatedListener, if_true, h, if_false, hparse], rfl, rfl⟩

/-- C25, on the code: with both listeners installed and a `data-holiday`
attribute that `JSON.parse` reads as a holiday that is not saved, a click that
lands on the button element calls `saveHoliday` twice, once from the button's
own listener and once from the delegated listener; the second call removes the
plan the first one added, so after the click the store holds no holiday plan
with that date and `savedPlans` is what it was.  A click that lands on the
icon inside the button calls `saveHoliday` once, when that call returns
normally, and leaves the holiday saved.  With an attribute that `JSON.parse`
rejects, as the attribute of a holiday with an apostrophe is, both listeners
throw, `saveHoliday` is not called and the state is what it was. -/
theorem click_on_button_toggles_twice (s : AppState) (c : Country) (env1 env2 : Env)
    (text : String) (v : Json) (holiday : PlanData)
    (hparse : parseJSON text.data = some v)
    (harg : holidayArgument v = some (HolidayArgument.object holiday))
    (hc : s.selectedCountry = some c)
    (hns : isSavedHoliday s (getProp holiday "date") = false) :
    saveHolidayCalls s ClickTarget.button env1 env2 (some text) = some 2 ∧
    (clickHolidayButton s ClickTarget.button env1 env2 (some text)).map
      (fun after => after.savedPlans) = some s.savedPlans ∧
    (clickHolidayButton s ClickTarget.button env1 env2 (some text)).map
      (fun after => isSavedHoliday after (getProp holiday "date")) = some false ∧
    (env1.quotaOk = true →
      saveHolidayCalls s ClickTarget.icon env1 env2 (some text) = some 1 ∧
      (clickHolidayButton s ClickTarget.icon env1 env2 (some text)).map
        (fun after => isSavedHoliday after (getProp holiday "date")) = some true) ∧
    (∀ (cut : String) (target : ClickTarget), parseJSON cut.data = none →
      saveHolidayCalls s target env1 env2 (some cut) = some 0 ∧
      clickHolidayButton s target env1 env2 (some cut) = some s) := by
  have h2 := (saveHoliday_twice_savedPlans s c env1 env2 holiday hc hns).2
  have hfirst := holidayButtonListener_parsed s env1 text v holiday hparse harg
  have hbutton : clickListeners s ClickTarget.button env1 env2 (some text) =
      some ({ outcome := saveHoliday s env1 holiday, calls := 1 },
            { outcome := saveHoliday (saveHoliday s env1 holiday).state env2 holiday,
              calls := 1 }) := by
    simp only [clickListeners, hfirst, closestFindsButton,
      delegatedListener_parsed _ env2 text v holiday hparse harg]
  refine ⟨?_, ?_, ?_, ?_, ?_⟩
  · simp only [saveHolidayCalls, hbutton, Option.map_some']
  · simp only [clickHolidayButton, hbutton, Option.map_some']
    rw [h2]
  · simp only [clickHolidayButton, hbutton, Option.map_some']
    unfold isSavedHoliday at hns ⊢
    rw [h2]
    exact congrArg some hns
  · intro hq
    have hcomp := saveHoliday_completion_adding s c env1 holiday hc hns hq
    have hsaved := (saveHoliday_twice_savedPlans s c env1 env2 holiday hc hns).1
    have hicon : clickListeners s ClickTarget.icon env1 env2 (some text) =
        some ({ outcome := saveHoliday s env1 holiday, calls := 1 },
              { outcome := { state := (saveHoliday s env1 holiday).state
                             completion := Completion.returned JSVal.undefined }
                calls := 0 }) := by
      simp only [clickListeners, hfirst, hcomp, closestFindsButton,
        delegatedListener_not_found]
    constructor
    · simp only [saveHolidayCalls, hicon, Option.map_some']
    · simp only [clickHolidayButton, hicon, Option.map_some']
      exact congrArg some hsaved
  · intro cut target hcut
    obtain ⟨run, hrun, hstate, hcalls⟩ := delegatedListener_malformed s env2 cut hcut
    have hfinds : closestFindsButton target (Completion.threw JSError.syntaxError) = true := by
      cases target <;> rfl
    have hboth : clickListeners s target env1 env2 (some cut) =
        some ({ outcome := { state := s, completion := Completion.threw JSError.syntaxError }
                calls := 0 }, run) := by
      simp only [clickListeners, holidayButtonListener_malformed s env1 cut hcut, hfinds, hrun]
    constructor
    · simp only [saveHolidayCalls, hboth, Option.map_some', hcalls]
    · simp only [clickHolidayButton, hboth, Option.map_some', hstate]

set_option maxRecDepth 100000 in
theorem parseJSON_christmasAttribute :
    parseJSON christmasAttribute.data =
      some (Json.obj
        [("date", Json.str "2025-12-25"), ("localName", Json.str "Christmas Day"),
         ("name", Json.str "Christmas Day"), ("countryCode", Json.str "EG"),
         ("fixed", Json.bool true), ("global", Json.bool true),
         ("types", Json.arr [Json.str "Public"])]) := by
  rfl

set_option maxRecDepth 100000 in
theorem parseJSON_newYearAttribute : parseJSON newYearAttribute.data = none := by
  rfl

/-- C25, on the code, for the initial store and the cards of two mock
holidays: the attribute of `Christmas Day` parses, a click on the button
element calls `saveHoliday` twice and leaves the store empty, and a click on
the icon calls it once; the attribute of `New Year's Day` ends at the
apostrophe, and a click calls `saveHoliday` not at all. -/
theorem click_on_button_toggles_twice_witness :
    saveHolidayCalls AppState.initial ClickTarget.button sampleEnv laterEnv
      (some christmasAttribute) = some 2 ∧
    (clickHolidayButton AppState.initial ClickTarget.button sampleEnv laterEnv
      (some christmasAttribute)).map (fun after => after.savedPlans) = some [] ∧
    (clickHolidayButton AppState.initial ClickTarget.button sampleEnv laterEnv
      (some christmasAttribute)).map
      (fun after => isSavedHoliday after (JSVal.str "2025-12-25")) = some false ∧
    saveHolidayCalls AppState.initial ClickTarget.icon sampleEnv laterEnv
      (some christmasAttribute) = some 1 ∧
    saveHolidayCalls AppState.initial ClickTarget.button sampleEnv laterEnv
      (some newYearAttribute) = some 0 ∧
    clickHolidayButton AppState.initial ClickTarget.button sampleEnv laterEnv
      (some newYearAttribute) = some AppState.initial :=
  have h := click_on_button_toggles_twice AppState.initial
    { code := "EG", name := "Egypt", flag := "https://flagcdn.com/w80/eg.png",
      capital := some "Cairo" }
    sampleEnv laterEnv christmasAttribute
    (Json.obj
      [("date", Json.str "2025-12-25"), ("localName", Json.str "Christmas Day"),
       ("name", Json.str "Christmas Day"), ("countryCode", Json.str "EG"),
       ("fixed", Json.bool true), ("global", Json.bool true),
       ("types", Json.arr [Json.str "Public"])])
    [("name", JSVal.str "Christmas Day"), ("localName", JSVal.str "Christmas Day"),
     ("date", JSVal.str "2025-12-25")]
    parseJSON_christmasAttribute rfl rfl (by decide)
  ⟨h.1, h.2.1, h.2.2.1, (h.2.2.2.1 rfl).1,
   (h.2.2.2.2 newYearAttribute ClickTarget.button parseJSON_newYearAttribute).1,
   (h.2.2.2.2 newYearAttribute ClickTarget.button parseJSON_newYearAttribute).2⟩

/-! ## C26: `addPlan` without a selection -/

/-- C26: when `selectedCountry` is `null`, as the clear-selection handler
leaves it, `addPlan` throws while it builds the plan and leaves the whole
state, `savedPlans` and the slot `wanderlust_plans` included, exactly as it
was; `savedPlans` changes only when `selectedCountry` is not `null`. -/
theorem addPlan_without_selection (s : AppState) (env : Env) (type : String)
    (data : PlanData) :
    (s.selectedCountry = none →
      (addPlan s env type data).completion = Completion.threw JSError.typeError ∧
      (addPlan s env type data).state = s ∧
      (addPlan s env type data).state.savedPlans = s.savedPlans ∧
      (addPlan s env type data).state.localStorage.getItem "wanderlust_plans" =
        s.localStorage.getItem "wanderlust_plans") ∧
    ((addPlan s env type data).state.savedPlans ≠ s.savedPlans →
      s.selectedCountry ≠ none) ∧
    (clearSelection s).selectedCountry = none := by
  refine ⟨?_, ?_, rfl⟩
  · intro h
    have hs := addPlan_savedPlans_none s env type data h
    refine ⟨?_, hs, by rw [hs], by rw [hs]⟩
    simp [addPlan, h]
  · intro hne hnone
    exact hne (by rw [addPlan_savedPlans_none s env type data hnone])

/-- C26 on the store of three plans after the selection was cleared. -/
theorem addPlan_without_selection_witness :
    (addPlan (clearSelection threePlans) sampleEnv "event" sampleEvent).completion =
      Completion.threw JSError.typeError ∧
    (addPlan (clearSelection threePlans) sampleEnv "event" sampleEvent).state =
      clearSelection threePlans :=
  ⟨((addPlan_without_selection (clearSelection threePlans) sampleEnv "event"
      sampleEvent).1 rfl).1,
   ((addPlan_without_selection (clearSelection threePlans) sampleEnv "event"
      sampleEvent).1 rfl).2.1⟩

/-! ## C27: the total and the per-type counts -/

theorem knownType_iff (t : String) :
    knownType t = true ↔ t = "holiday" ∨ t = "event" ∨ t = "longweekend" := by
  simp [knownType, or_assoc]

theorem typeIndicator_spec (t : String) :
    (if t = "holiday" then 1 else 0) + (if t = "event" then 1 else 0) +
        (if t = "longweekend" then 1 else 0) ≤ 1 ∧
    ((if t = "holiday" then 1 else 0) + (if t = "event" then 1 else 0) +
        (if t = "longweekend" then 1 else 0) = 1 ↔ knownType t = true) := by
  by_cases h1 : t = "holiday"
  · subst h1; decide
  · by_cases h2 : t = "event"
    · subst h2; decide
    · by_cases h3 : t = "longweekend"
      · subst h3; decide
      · simp [knownType_iff, h1, h2, h3]

theorem count_step (n a i : Nat) (A K : Prop) (hle : a ≤ n) (hiff : n = a ↔ A)
    (hi : i ≤ 1) (hK : i = 1 ↔ K) :
    a + i ≤ n + 1 ∧ (n + 1 = a + i ↔ K ∧ A) := by
  refine ⟨by omega, ?_, ?_⟩
  · intro h
    exact ⟨hK.1 (by omega), hiff.1 (by omega)⟩
  · rintro ⟨k, a1⟩
    have := hK.2 k
    have := hiff.2 a1
    omega

theorem countOfType_cons (p : Plan) (ps : List Plan) (t : String) :
    countOfType (p :: ps) t = countOfType ps t + (if p.type = t then 1 else 0) := by
  by_cases h : p.type = t <;> simp [countOfType, List.filter_cons, h]

theorem counts_sum_le (ps : List Plan) :
    countOfType ps "holiday" + countOfType ps "event" + countOfType ps "longweekend" ≤
      ps.length ∧
    (ps.length =
        countOfType ps "holiday" + countOfType ps "event" + countOfType ps "longweekend" ↔
      ∀ p ∈ ps, knownType p.type = true) := by
  induction ps with
  | nil => simp [countOfType]
  | cons p ps ih =>
    obtain ⟨hle, hiff⟩ := ih
    obtain ⟨hi, hK⟩ := typeIndicator_spec p.type
    have key := count_step _ _ _ _ _ hle hiff hi hK
    have e : countOfType (p :: ps) "holiday" + countOfType (p :: ps) "event" +
        countOfType (p :: ps) "longweekend" =
        countOfType ps "holiday" + countOfType ps "event" + countOfType ps "longweekend" +
          ((if p.type = "holiday" then 1 else 0) + (if p.type = "event" then 1 else 0) +
            (if p.type = "longweekend" then 1 else 0)) := by
      rw [countOfType_cons, countOfType_cons, countOfType_cons]
      omega
    rw [e, List.length_cons, List.forall_mem_cons]
    exact key

theorem uiStep_known (s : AppState) (op : UiOp)
    (h : ∀ p ∈ s.savedPlans, knownType p.type = true) :
    ∀ p ∈ (uiStep s op).state.savedPlans, knownType p.type = true := by
  have hfilter : ∀ f : Plan → Bool, ∀ p ∈ s.savedPlans.filter f, knownType p.type = true :=
    fun f p hp => h p (List.mem_filter.1 hp).1
  have htoggle : ∀ (b : Bool) (f : Plan → Bool) (sel : Option Country) (mk : Country → Plan),
      (∀ c, knownType (mk c).type = true) →
      ∀ p ∈ (if b then s.savedPlans.filter f
             else match sel with
               | none => s.savedPlans
               | some c => s.savedPlans ++ [mk c]), knownType p.type = true := by
    intro b f sel mk hmk p hp
    cases b with
    | true => exact hfilter f p hp
    | false =>
      cases sel with
      | none => exact h p hp
      | some c =>
        simp only [Bool.false_eq_true, if_false, List.mem_append, List.mem_singleton] at hp
        rcases hp with hp | hp
        · exact h p hp
        · rw [hp]; exact hmk c
  cases op with
  | holiday env holiday =>
    simp only [uiStep]
    rw [saveHoliday_savedPlans]
    exact htoggle _ _ _ _ (fun _ => rfl)
  | event env card =>
    simp only [uiStep]
    rw [saveEvent_savedPlans]
    exact htoggle _ _ _ _ (fun _ => rfl)
  | longWeekend env card =>
    simp only [uiStep]
    rw [saveLongWeekend_savedPlans]
    exact htoggle _ _ _ _ (fun _ => rfl)
  | remove env id =>
    simp only [uiStep]
    rw [removePlan_savedPlans]
    exact hfilter _
  | clear env =>
    simp only [uiStep]
    rw [clearAllPlans_savedPlans]
    intro p hp
    cases hp

theorem uiRun_known (ops : List UiOp) :
    ∀ s : AppState, (∀ p ∈ s.savedPlans, knownType p.type = true) →
      ∀ p ∈ (uiRun s ops).savedPlans, knownType p.type = true := by
  induction ops with
  | nil => intro s h; exact h
  | cons op ops ih =>
    intro s h
    exact ih _ (uiStep_known s op h)

/-- C27: in every store state the total `updatePlansCounter` computes is the
sum of its holiday, event and longweekend counts if and only if every plan of
`savedPlans` has one of these three types (the sum never exceeds the total);
and the equality holds in every state reached from an empty store through
`saveHoliday`, `saveEvent`, `saveLongWeekend`, `removePlan` and
`clearAllPlans`. -/
theorem total_is_sum_of_type_counts (s : AppState) :
    (s.savedPlans.length =
        countOfType s.savedPlans "holiday" + countOfType s.savedPlans "event" +
          countOfType s.savedPlans "longweekend" ↔
      ∀ p ∈ s.savedPlans,
        p.type = "holiday" ∨ p.type = "event" ∨ p.type = "longweekend") ∧
    countOfType s.savedPlans "holiday" + countOfType s.savedPlans "event" +
        countOfType s.savedPlans "longweekend" ≤ s.savedPlans.length ∧
    (s.savedPlans = [] → ∀ ops : List UiOp,
      (uiRun s ops).savedPlans.length =
        countOfType (uiRun s ops).savedPlans "holiday" +
          countOfType (uiRun s ops).savedPlans "event" +
          countOfType (uiRun s ops).savedPlans "longweekend") := by
  refine ⟨?_, (counts_sum_le s.savedPlans).1, ?_⟩
  · rw [(counts_sum_le s.savedPlans).2]
    simp only [knownType_iff]
  · intro hempty ops
    rw [(counts_sum_le _).2]
    apply uiRun_known ops s
    rw [hempty]
    intro p hp
    cases hp

/-- C27 on the sample session, starting from the initial store. -/
theorem total_is_sum_of_type_counts_witness :
    (uiRun AppState.initial sampleSession).savedPlans.length =
      countOfType (uiRun AppState.initial sampleSession).savedPlans "holiday" +
        countOfType (uiRun AppState.initial sampleSession).savedPlans "event" +
        countOfType (uiRun AppState.initial sampleSession).savedPlans "longweekend" :=
  (total_is_sum_of_type_counts AppState.initial).2.2 rfl sampleSession

/-! ## C28: the view the empty-state button opens -/

/-- C28, on the code: for the filters all, holiday and event the view name of
the empty-state button is a known view, but for the filter longweekend it is
`longweekends`, which is not one: the view is named `long-weekends`. -/
theorem emptyStateView_longweekend_unknown :
    emptyStateView "all" ∈ viewNames ∧ emptyStateView "holiday" ∈ viewNames ∧
    emptyStateView "event" ∈ viewNames ∧
    emptyStateView "longweekend" = "longweekends" ∧
    emptyStateView "longweekend" ∉ viewNames ∧
    "long-weekends" ∈ viewNames := by
  decide

end Wanderlust
